import Mathlib

/-!
Verification of the spectrum_virtualize_exporter probe pipeline.

The Go sources (`probe.go`, `spectrum_virtualize_exporter.go` and the
password-client file) are embedded shallowly below.  External
collaborators (the Go standard library's `url.Parse`, the
`alecthomas/units` byte-size parser, the HTTP transport and the
wall-clock) are taken as explicit function parameters; everything that
is code of this repository is translated definition by definition.
Floating-point gauge values are modelled as rationals.
-/

namespace SpectrumExporter

/-- One credential-map entry (`type Auth struct` in the exporter main file). -/
structure Auth where
  user : String
  password : String
deriving Repr, DecidableEq

/-- A parsed URL, as the fields of Go's `url.URL` that the exporter touches
(`Scheme`, `Host`, `Path`, `RawQuery`, `Fragment`). -/
structure URL where
  scheme : String
  host : String
  path : String := ""
  rawQuery : String := ""
  fragment : String := ""
deriving Repr, DecidableEq

/-- Go's `url.URL.String()` restricted to the field subset above: writes
`scheme://host`, inserts a `/` before a rootless path when a host is
present, then appends `?query` and `#fragment` when nonempty. -/
def urlString (u : URL) : String :=
  let base := (if u.scheme ≠ "" then u.scheme ++ ":" else "")
    ++ (if u.scheme ≠ "" ∨ u.host ≠ "" then "//" ++ u.host else "")
  let p := if u.path ≠ "" ∧ ¬ u.path.startsWith "/" ∧ u.host ≠ "" then
    "/" ++ u.path else u.path
  base ++ p ++ (if u.rawQuery ≠ "" then "?" ++ u.rawQuery else "")
    ++ (if u.fragment ≠ "" then "#" ++ u.fragment else "")

/-- An HTTP request as issued through the shared transport. -/
structure HttpRequest where
  method : String
  url : String
  headers : List (String × String)
deriving Repr, DecidableEq

/-- Decoded JSON record of `rest/lsenclosurestats` (struct `enclosureStats`);
`stat_current` carries the already-parsed `int` of the `,string` JSON tag. -/
structure EnclosureStat where
  enclosureId : String
  statName : String
  statCurrent : Int
deriving Repr, DecidableEq

/-- Decoded JSON record of `rest/lsnodecanisterstats` (struct `nodeStat`). -/
structure NodeStat where
  nodeId : String
  statName : String
  statCurrent : Int
deriving Repr, DecidableEq

/-- Decoded JSON record of `rest/lsdrive` (struct `drive`). -/
structure Drive where
  id : String
  status : String
  use : String
  capacity : String
  slotId : String
  mdiskId : String
  mdiskName : String
  enclosureId : String
deriving Repr, DecidableEq

/-- Decoded JSON record of `rest/lsenclosurepsu` (struct `psu`). -/
structure Psu where
  status : String
  psuId : String
  enclosureId : String
deriving Repr, DecidableEq

/-- Decoded JSON record of `rest/lsmdiskgrp` (struct `pool`). -/
structure Pool where
  id : String
  status : String
  name : String
  vdiskCount : Int
  capacity : String
  freeCapacity : String
  virtualCapacity : String
  usedCapacity : String
  realCapacity : String
  reclaimableCapacity : String
deriving Repr, DecidableEq

/-- Decoded JSON record of `rest/lsportfc` (struct `fcPort`). -/
structure FcPort where
  type : String
  portSpeed : String
  status : String
  wwpn : String
  nodeId : String
  adapterLocation : String
  adapterPortId : String
deriving Repr, DecidableEq

/-- Decoded JSON record of `rest/lsportip` (struct `ipPort`). -/
structure IpPort where
  speed : String
  state : String
  linkState : String
  mac : String
  nodeId : String
  adapterLocation : String
  adapterPortId : String
deriving Repr, DecidableEq

/-- The decoded body of an upstream response: one constructor per JSON
shape the exporter unmarshals, plus `malformed` for bodies that decode
into none of them (a `json.Unmarshal` failure). -/
inductive BodyData where
  | loginBody (token : String)
  | enclosureStats (rows : List EnclosureStat)
  | psus (rows : List Psu)
  | pools (rows : List Pool)
  | drives (rows : List Drive)
  | nodeStats (rows : List NodeStat)
  | fcPorts (rows : List FcPort)
  | ipPorts (rows : List IpPort)
  | malformed
deriving Repr, DecidableEq

/-- What the transport returns to `http.Client.Do`: either a transport
error or a response with a status code and a (decoded) body. -/
inductive TransportResult where
  | transportError (e : String)
  | response (statusCode : Int) (body : BodyData)
deriving Repr, DecidableEq

/-- The shared HTTP transport, as a pure request-to-result function. -/
abbrev Transport := HttpRequest → TransportResult

/-- One exported gauge series: metric name, label pairs, value. -/
structure MetricPoint where
  name : String
  labels : List (String × String)
  value : ℚ
deriving Repr, DecidableEq

/-- The per-request metric sink (`prometheus.Registry`): the registered
metric families (name and label names, in registration order) and the
populated series. -/
structure Registry where
  families : List (String × List String)
  points : List MetricPoint
deriving Repr, DecidableEq

/-- Model of `registry.MustRegister` of a gauge vector: records the family. -/
def mustRegister (reg : Registry) (name : String) (labelNames : List String) : Registry :=
  { reg with families := reg.families ++ [(name, labelNames)] }

/-- Model of `GaugeVec.WithLabelValues(...).Set(v)`: overwrite the series with the
same name and label pairs if it exists, otherwise append it. -/
def setPoint : List MetricPoint → MetricPoint → List MetricPoint
  | [], p => [p]
  | q :: qs, p =>
    if q.name = p.name ∧ q.labels = p.labels then p :: qs else q :: setPoint qs p

/-- Apply a batch of `Set` calls, in order, to the sink. -/
def applyPoints (reg : Registry) (pts : List MetricPoint) : Registry :=
  { reg with points := pts.foldl setPoint reg.points }

/-- Find the value of the series with the given name and labels. -/
def lookupPoint (reg : Registry) (name : String) (labels : List (String × String)) : Option ℚ :=
  (reg.points.find? fun p => p.name = name ∧ p.labels = labels).map MetricPoint.value

/-- Model of `strings.HasSuffix` (on the character sequence). -/
def hasSuffix (s suffix : String) : Bool :=
  suffix.data.isSuffixOf s.data

/-- Model of `strings.TrimSuffix`: drop `suffix` from the end of `s` when present. -/
def trimSuffix (s suffix : String) : String :=
  if hasSuffix s suffix then ⟨s.data.take (s.data.length - suffix.data.length)⟩ else s

/-- Value of a nonempty run of decimal digits, most significant first;
`none` if the run is empty or contains a non-digit. -/
def decDigits : List Char → Option Nat
  | [] => none
  | [c] => if c.isDigit then some (c.toNat - 48) else none
  | c :: cs =>
    if c.isDigit then (decDigits cs).map (fun n => (c.toNat - 48) * 10 ^ cs.length + n)
    else none

/-- Model of `strconv.Atoi` (`ParseInt(s, 10, 0)` with 64-bit `int`): an optional
sign followed by at least one digit, rejected when out of the signed
64-bit range. -/
def atoi (s : String) : Option Int :=
  let (neg, ds) := match s.data with
    | '+' :: r => (false, r)
    | '-' :: r => (true, r)
    | r => (false, r)
  match decDigits ds with
  | none => none
  | some n =>
    let v : Int := if neg then -(n : Int) else (n : Int)
    if v < -(2 ^ 63) ∨ 2 ^ 63 - 1 < v then none else some v

/-- The tri-state one-hot split shared by the drive and PSU probes:
`var son, soff, sdeg float64` with the `if`/`else if` chain on `Status`. -/
def statusOneHot (status : String) : ℚ × ℚ × ℚ :=
  if status = "online" then (1, 0, 0)
  else if status = "offline" then (0, 1, 0)
  else if status = "degraded" then (0, 0, 1)
  else (0, 0, 0)

/-- Loop body of `probeEnclosureStats`: the `power_w`/`temp_c` dispatch. -/
def enclosureStatPoints (s : EnclosureStat) : List MetricPoint :=
  if s.statName = "power_w" then
    [⟨"spectrum_power_watts", [("enclosure", s.enclosureId)], (s.statCurrent : ℚ)⟩]
  else if s.statName = "temp_c" then
    [⟨"spectrum_temperature", [("enclosure", s.enclosureId)], (s.statCurrent : ℚ)⟩]
  else []

/-- Loop body of `probeDrives`: three unconditional `Set` calls on
`spectrum_drive_status` with the one-hot values. -/
def drivePoints (s : Drive) : List MetricPoint :=
  let t := statusOneHot s.status
  [⟨"spectrum_drive_status",
      [("enclosure", s.enclosureId), ("slot_id", s.slotId), ("id", s.id), ("status", "online")], t.1⟩,
   ⟨"spectrum_drive_status",
      [("enclosure", s.enclosureId), ("slot_id", s.slotId), ("id", s.id), ("status", "offline")], t.2.1⟩,
   ⟨"spectrum_drive_status",
      [("enclosure", s.enclosureId), ("slot_id", s.slotId), ("id", s.id), ("status", "degraded")], t.2.2⟩]

/-- Loop body of `probeEnclosurePSUs`: three unconditional `Set` calls on
`spectrum_psu_status` with the one-hot values. -/
def psuPoints (s : Psu) : List MetricPoint :=
  let t := statusOneHot s.status
  [⟨"spectrum_psu_status", [("enclosure", s.enclosureId), ("id", s.psuId), ("status", "online")], t.1⟩,
   ⟨"spectrum_psu_status", [("enclosure", s.enclosureId), ("id", s.psuId), ("status", "offline")], t.2.1⟩,
   ⟨"spectrum_psu_status", [("enclosure", s.enclosureId), ("id", s.psuId), ("status", "degraded")], t.2.2⟩]

/-- Loop body of `probePool`.  `pb` stands for the external
`units.ParseBase2Bytes` (byte count on success, `none` on a parse error);
an unparseable capacity only skips its own `Set` call. -/
def poolPoints (pb : String → Option Int) (s : Pool) : List MetricPoint :=
  let bistate : ℚ × ℚ :=
    if s.status = "online" then (1, 0)
    else if s.status = "offline" then (0, 1)
    else (0, 0)
  [⟨"spectrum_pool_status", [("id", s.id), ("name", s.name), ("status", "online")], bistate.1⟩,
   ⟨"spectrum_pool_status", [("id", s.id), ("name", s.name), ("status", "offline")], bistate.2⟩,
   ⟨"spectrum_pool_volume_count", [("id", s.id), ("name", s.name)], (s.vdiskCount : ℚ)⟩]
  ++ (match pb s.freeCapacity with
      | some free => [⟨"spectrum_pool_free_bytes", [("id", s.id), ("name", s.name)], (free : ℚ)⟩]
      | none => [])
  ++ (match pb s.capacity with
      | some c => [⟨"spectrum_pool_capacity_bytes", [("id", s.id), ("name", s.name)], (c : ℚ)⟩]
      | none => [])
  ++ (match pb s.usedCapacity with
      | some used => [⟨"spectrum_pool_used_bytes", [("id", s.id), ("name", s.name)], (used : ℚ)⟩]
      | none => [])

/-- Loop body of `probeNodeStats`: the `stat_name` dispatch chain. -/
def nodeStatPoints (s : NodeStat) : List MetricPoint :=
  if s.statName = "compression_cpu_pc" then
    [⟨"spectrum_node_compression_usage_ratio", [("id", s.nodeId)], (s.statCurrent : ℚ) / 100⟩]
  else if s.statName = "cpu_pc" then
    [⟨"spectrum_node_system_usage_ratio", [("id", s.nodeId)], (s.statCurrent : ℚ) / 100⟩]
  else if s.statName = "fc_mb" then
    [⟨"spectrum_node_fc_bps", [("id", s.nodeId)], (s.statCurrent : ℚ) * 1024 * 1024⟩]
  else if s.statName = "fc_io" then
    [⟨"spectrum_node_fc_iops", [("id", s.nodeId)], (s.statCurrent : ℚ)⟩]
  else if s.statName = "iscsi_mb" then
    [⟨"spectrum_node_iscsi_bps", [("id", s.nodeId)], (s.statCurrent : ℚ) * 1024 * 1024⟩]
  else if s.statName = "iscsi_io" then
    [⟨"spectrum_node_iscsi_iops", [("id", s.nodeId)], (s.statCurrent : ℚ)⟩]
  else if s.statName = "sas_mb" then
    [⟨"spectrum_node_sas_bps", [("id", s.nodeId)], (s.statCurrent : ℚ) * 1024 * 1024⟩]
  else if s.statName = "sas_io" then
    [⟨"spectrum_node_sas_iops", [("id", s.nodeId)], (s.statCurrent : ℚ)⟩]
  else if s.statName = "write_cache_pc" then
    [⟨"spectrum_node_write_cache_usage_ratio", [("id", s.nodeId)], (s.statCurrent : ℚ) / 100⟩]
  else if s.statName = "total_cache_pc" then
    [⟨"spectrum_node_total_cache_usage_ratio", [("id", s.nodeId)], (s.statCurrent : ℚ) / 100⟩]
  else []

/-- Speed normalization of `probeFCPorts`: `ps := 0`, then if trimming the
`"Gb"` suffix changed the string and the remainder parses, `ps = x × 10⁹`. -/
def fcSpeedBps (speed : String) : Int :=
  let ps : Int := 0
  let pss := trimSuffix speed "Gb"
  if pss ≠ speed then
    match atoi pss with
    | some x => x * 1000 * 1000 * 1000
    | none => ps
  else ps

/-- Loop body of `probeFCPorts`: status one-hot over
active / inactive_unconfigured / inactive_configured, then the speed gauge. -/
def fcPortPoints (s : FcPort) : List MetricPoint :=
  let t : ℚ × ℚ × ℚ :=
    if s.status = "active" then (1, 0, 0)
    else if s.status = "inactive_unconfigured" then (0, 1, 0)
    else if s.status = "inactive_configured" then (0, 0, 1)
    else (0, 0, 0)
  let base := [("node_id", s.nodeId), ("adapter_location", s.adapterLocation),
    ("adapter_port_id", s.adapterPortId)]
  [⟨"spectrum_fc_port_status", base ++ [("wwpn", s.wwpn), ("status", "active")], t.1⟩,
   ⟨"spectrum_fc_port_status", base ++ [("wwpn", s.wwpn), ("status", "inactive_unconfigured")], t.2.1⟩,
   ⟨"spectrum_fc_port_status", base ++ [("wwpn", s.wwpn), ("status", "inactive_configured")], t.2.2⟩,
   ⟨"spectrum_fc_port_speed_bps", base, (fcSpeedBps s.portSpeed : ℚ)⟩]

/-- Speed normalization of `probeIPPorts`: the `"Gb/s"` check followed by
the `"Mb/s"` check, the second assignment overriding the first. -/
def ipSpeedBps (speed : String) : Int :=
  let ps : Int := 0
  let ps :=
    let pss := trimSuffix speed "Gb/s"
    if pss ≠ speed then
      match atoi pss with
      | some x => x * 1000 * 1000 * 1000
      | none => ps
    else ps
  let pss := trimSuffix speed "Mb/s"
  if pss ≠ speed then
    match atoi pss with
    | some x => x * 1000 * 1000
    | none => ps
  else ps

/-- Loop body of `probeIPPorts`: state one-hot, link-active boolean, speed. -/
def ipPortPoints (s : IpPort) : List MetricPoint :=
  let t : ℚ × ℚ × ℚ :=
    if s.state = "configured" then (1, 0, 0)
    else if s.state = "unconfigured" then (0, 1, 0)
    else if s.state = "management_only" then (0, 0, 1)
    else (0, 0, 0)
  let active : ℚ := if s.linkState = "active" then 1 else 0
  let base := [("node_id", s.nodeId), ("adapter_location", s.adapterLocation),
    ("adapter_port_id", s.adapterPortId)]
  [⟨"spectrum_ip_port_state", base ++ [("mac", s.mac), ("state", "configured")], t.1⟩,
   ⟨"spectrum_ip_port_state", base ++ [("mac", s.mac), ("state", "unconfigured")], t.2.1⟩,
   ⟨"spectrum_ip_port_state", base ++ [("mac", s.mac), ("state", "management_only")], t.2.2⟩,
   ⟨"spectrum_ip_port_link_active", base ++ [("mac", s.mac)], active⟩,
   ⟨"spectrum_ip_port_speed_bps", base, (ipSpeedBps s.speed : ℚ)⟩]

/-- The password session client: normalized target plus the login token
(`spectrumPasswordClient`). -/
structure Client where
  tgt : URL
  tok : String
deriving Repr, DecidableEq

/-- The request built by `spectrumPasswordClient.Get`: target with `Path`
and `RawQuery` overridden, `POST`, token in the `X-Auth-Token` header. -/
def fetchRequest (c : Client) (path query : String) : HttpRequest :=
  ⟨"POST", urlString { c.tgt with path := path, rawQuery := query },
    [("X-Auth-Token", c.tok)]⟩

/-- Translation of `spectrumPasswordClient.Get`: issue the request, require status 200,
return the decoded body; the issued request is appended to the log. -/
def clientGet (tr : Transport) (c : Client) (path query : String)
    (log : List HttpRequest) : Except String BodyData × List HttpRequest :=
  let req := fetchRequest c path query
  match tr req with
  | .transportError e => (.error e, log ++ [req])
  | .response code body =>
    if code ≠ 200 then
      (.error ("Response code was " ++ toString code ++ ", expected 200"), log ++ [req])
    else (.ok body, log ++ [req])

/-- The login request of `newSpectrumPasswordClient`: `POST` to
`/rest/auth` with the credentials in headers. -/
def authRequest (tgt : URL) (user passwd : String) : HttpRequest :=
  ⟨"POST", urlString { tgt with path := "/rest/auth" },
    [("X-Auth-Username", user), ("X-Auth-Password", passwd)]⟩

/-- Translation of `newSpectrumPasswordClient`: login exchange; requires status 200 and a
decodable token body, yielding a token-bearing client. -/
def newSpectrumPasswordClient (tr : Transport) (tgt : URL) (user passwd : String)
    (log : List HttpRequest) : Except String Client × List HttpRequest :=
  let req := authRequest tgt user passwd
  match tr req with
  | .transportError e => (.error e, log ++ [req])
  | .response code body =>
    if code ≠ 200 then
      (.error ("Login code was " ++ toString code ++ ", expected 200"), log ++ [req])
    else match body with
      | .loginBody token => (.ok ⟨tgt, token⟩, log ++ [req])
      | _ => (.error "json unmarshal failed", log ++ [req])

/-- Translation of `newSpectrumClient`: exact credential-map lookup keyed by the
normalized target's string form, rejection of absent or incomplete
entries before any request, then the login exchange. -/
def newSpectrumClient (tr : Transport) (authMap : List (String × Auth)) (tgt : URL)
    (log : List HttpRequest) : Except String Client × List HttpRequest :=
  match authMap.lookup (urlString tgt) with
  | none => (.error ("No API authentication registered for " ++ urlString tgt), log)
  | some auth =>
    if auth.user ≠ "" ∧ auth.password ≠ "" then
      newSpectrumPasswordClient tr tgt auth.user auth.password log
    else (.error ("Invalid authentication data for " ++ urlString tgt), log)

/-- Result triple of one resource probe: success flag, updated sink,
updated request log. -/
abbrev ProbeResult := Bool × Registry × List HttpRequest

/-- Translation of `probeEnclosureStats`: register the two families, fetch
`rest/lsenclosurestats`, emit the per-record points. -/
def probeEnclosureStats (tr : Transport) (c : Client) (reg : Registry)
    (log : List HttpRequest) : ProbeResult :=
  let reg := mustRegister (mustRegister reg "spectrum_power_watts" ["enclosure"])
    "spectrum_temperature" ["enclosure"]
  match clientGet tr c "rest/lsenclosurestats" "" log with
  | (.error _, log) => (false, reg, log)
  | (.ok (.enclosureStats st), log) =>
    (true, applyPoints reg ((st.map enclosureStatPoints).flatten), log)
  | (.ok _, log) => (false, reg, log)

/-- Translation of `probeEnclosurePSUs`: register `spectrum_psu_status`, fetch
`rest/lsenclosurepsu`, emit the one-hot points. -/
def probeEnclosurePSUs (tr : Transport) (c : Client) (reg : Registry)
    (log : List HttpRequest) : ProbeResult :=
  let reg := mustRegister reg "spectrum_psu_status" ["enclosure", "id", "status"]
  match clientGet tr c "rest/lsenclosurepsu" "" log with
  | (.error _, log) => (false, reg, log)
  | (.ok (.psus st), log) => (true, applyPoints reg ((st.map psuPoints).flatten), log)
  | (.ok _, log) => (false, reg, log)

/-- Translation of `probePool`: register the five pool families, fetch `rest/lsmdiskgrp`,
emit per-record points (capacity parsing through `pb`). -/
def probePool (tr : Transport) (pb : String → Option Int) (c : Client) (reg : Registry)
    (log : List HttpRequest) : ProbeResult :=
  let reg := mustRegister reg "spectrum_pool_status" ["id", "name", "status"]
  let reg := mustRegister reg "spectrum_pool_volume_count" ["id", "name"]
  let reg := mustRegister reg "spectrum_pool_capacity_bytes" ["id", "name"]
  let reg := mustRegister reg "spectrum_pool_free_bytes" ["id", "name"]
  let reg := mustRegister reg "spectrum_pool_used_bytes" ["id", "name"]
  match clientGet tr c "rest/lsmdiskgrp" "" log with
  | (.error _, log) => (false, reg, log)
  | (.ok (.pools st), log) => (true, applyPoints reg ((st.map (poolPoints pb)).flatten), log)
  | (.ok _, log) => (false, reg, log)

/-- Translation of `probeDrives`: register `spectrum_drive_status`, fetch `rest/lsdrive`,
emit the one-hot points. -/
def probeDrives (tr : Transport) (c : Client) (reg : Registry)
    (log : List HttpRequest) : ProbeResult :=
  let reg := mustRegister reg "spectrum_drive_status" ["enclosure", "slot_id", "id", "status"]
  match clientGet tr c "rest/lsdrive" "" log with
  | (.error _, log) => (false, reg, log)
  | (.ok (.drives st), log) => (true, applyPoints reg ((st.map drivePoints).flatten), log)
  | (.ok _, log) => (false, reg, log)

/-- Translation of `probeNodeStats`: register the ten node families, fetch
`rest/lsnodecanisterstats`, emit the dispatched points.  Registration
order in the source: system CPU first, then compression, caches, FC,
iSCSI and SAS. -/
def probeNodeStats (tr : Transport) (c : Client) (reg : Registry)
    (log : List HttpRequest) : ProbeResult :=
  let reg := mustRegister reg "spectrum_node_system_usage_ratio" ["id"]
  let reg := mustRegister reg "spectrum_node_compression_usage_ratio" ["id"]
  let reg := mustRegister reg "spectrum_node_write_cache_usage_ratio" ["id"]
  let reg := mustRegister reg "spectrum_node_total_cache_usage_ratio" ["id"]
  let reg := mustRegister reg "spectrum_node_fc_bps" ["id"]
  let reg := mustRegister reg "spectrum_node_fc_iops" ["id"]
  let reg := mustRegister reg "spectrum_node_iscsi_bps" ["id"]
  let reg := mustRegister reg "spectrum_node_iscsi_iops" ["id"]
  let reg := mustRegister reg "spectrum_node_sas_bps" ["id"]
  let reg := mustRegister reg "spectrum_node_sas_iops" ["id"]
  match clientGet tr c "rest/lsnodecanisterstats" "" log with
  | (.error _, log) => (false, reg, log)
  | (.ok (.nodeStats st), log) => (true, applyPoints reg ((st.map nodeStatPoints).flatten), log)
  | (.ok _, log) => (false, reg, log)

/-- Translation of `probeHost`: the literal source body is `return true` — no fetch, no
registration. -/
def probeHost (tr : Transport) (c : Client) (reg : Registry)
    (log : List HttpRequest) : ProbeResult :=
  (true, reg, log)

/-- Translation of `probeFCPorts`: register status and speed families, fetch
`rest/lsportfc`, emit the per-record points. -/
def probeFCPorts (tr : Transport) (c : Client) (reg : Registry)
    (log : List HttpRequest) : ProbeResult :=
  let reg := mustRegister reg "spectrum_fc_port_status"
    ["node_id", "adapter_location", "adapter_port_id", "wwpn", "status"]
  let reg := mustRegister reg "spectrum_fc_port_speed_bps"
    ["node_id", "adapter_location", "adapter_port_id"]
  match clientGet tr c "rest/lsportfc" "" log with
  | (.error _, log) => (false, reg, log)
  | (.ok (.fcPorts st), log) => (true, applyPoints reg ((st.map fcPortPoints).flatten), log)
  | (.ok _, log) => (false, reg, log)

/-- Translation of `probeIPPorts`: register state, link-active and speed families, fetch
`rest/lsportip`, emit the per-record points. -/
def probeIPPorts (tr : Transport) (c : Client) (reg : Registry)
    (log : List HttpRequest) : ProbeResult :=
  let reg := mustRegister reg "spectrum_ip_port_state"
    ["node_id", "adapter_location", "adapter_port_id", "mac", "state"]
  let reg := mustRegister reg "spectrum_ip_port_link_active"
    ["node_id", "adapter_location", "adapter_port_id", "mac"]
  let reg := mustRegister reg "spectrum_ip_port_speed_bps"
    ["node_id", "adapter_location", "adapter_port_id"]
  match clientGet tr c "rest/lsportip" "" log with
  | (.error _, log) => (false, reg, log)
  | (.ok (.ipPorts st), log) => (true, applyPoints reg ((st.map ipPortPoints).flatten), log)
  | (.ok _, log) => (false, reg, log)

/-- The `&&`-chained probe sequence of `probe`, with Go's left-to-right
short-circuit evaluation made explicit. -/
def probeAll (tr : Transport) (pb : String → Option Int) (c : Client) (reg : Registry)
    (log : List HttpRequest) : ProbeResult :=
  match probeEnclosureStats tr c reg log with
  | (false, reg, log) => (false, reg, log)
  | (true, reg, log) =>
  match probeEnclosurePSUs tr c reg log with
  | (false, reg, log) => (false, reg, log)
  | (true, reg, log) =>
  match probePool tr pb c reg log with
  | (false, reg, log) => (false, reg, log)
  | (true, reg, log) =>
  match probeDrives tr c reg log with
  | (false, reg, log) => (false, reg, log)
  | (true, reg, log) =>
  match probeNodeStats tr c reg log with
  | (false, reg, log) => (false, reg, log)
  | (true, reg, log) =>
  match probeHost tr c reg log with
  | (false, reg, log) => (false, reg, log)
  | (true, reg, log) =>
  match probeFCPorts tr c reg log with
  | (false, reg, log) => (false, reg, log)
  | (true, reg, log) => probeIPPorts tr c reg log

/-- The external collaborators threaded through the orchestrator:
`url.Parse`, the HTTP transport, the startup credential map and the
`units.ParseBase2Bytes` byte-size parser. -/
structure Env where
  parseURL : String → Except String URL
  transport : Transport
  authMap : List (String × Auth)
  parseBase2Bytes : String → Option Int

/-- The orchestrator `probe`: parse the target, reject non-http(s)
schemes, keep only scheme and host, build the client, run the chain.
`Except.error` mirrors Go's non-nil `error` return (with `false`);
`Except.ok` carries the aggregate success flag. -/
def probe (env : Env) (target : String) (reg : Registry) :
    Except String Bool × Registry × List HttpRequest :=
  match env.parseURL target with
  | .error e => (.error ("url.Parse failed: " ++ e), reg, [])
  | .ok tgt =>
    if tgt.scheme ≠ "https" ∧ tgt.scheme ≠ "http" then
      (.error ("Unsupported scheme " ++ tgt.scheme), reg, [])
    else
      let u : URL := { scheme := tgt.scheme, host := tgt.host }
      match newSpectrumClient env.transport env.authMap u [] with
      | (.error e, log) => (.error e, reg, log)
      | (.ok c, log) =>
        match probeAll env.transport env.parseBase2Bytes c reg log with
        | (success, reg, log) => (.ok success, reg, log)

/-- The `/probe` HTTP response: either the `http.Error` path or the
serialized registry page (promhttp serves it with status 200). -/
inductive HandlerResponse where
  | clientError (status : Int) (msg : String)
  | metricsPage (status : Int) (reg : Registry)
deriving Repr, DecidableEq

/-- HTTP status code of a handler response. -/
def HandlerResponse.status : HandlerResponse → Int
  | .clientError s _ => s
  | .metricsPage s _ => s

/-- A plain registered `prometheus.NewGauge` starts at value 0 and is
always collected. -/
def registerGauge (reg : Registry) (name : String) : Registry :=
  { families := reg.families ++ [(name, [])],
    points := reg.points ++ [⟨name, [], 0⟩] }

/-- Translation of `probeHandler`: reject a missing target, register the success and
duration gauges, run the probe; a probe error becomes an HTTP 400 with no
metrics body, otherwise the registry is served with status 200 after
setting the duration and (on success) the success gauge.  `duration`
stands for the measured wall-clock seconds. -/
def probeHandler (env : Env) (target : String) (duration : ℚ) : HandlerResponse :=
  if target = "" then .clientError 400 "Target parameter missing or empty"
  else
    let reg : Registry := ⟨[], []⟩
    let reg := registerGauge reg "probe_success"
    let reg := registerGauge reg "probe_duration_seconds"
    match probe env target reg with
    | (.error e, _, _) => .clientError 400 ("probe: " ++ e)
    | (.ok success, reg, _) =>
      let reg := applyPoints reg [⟨"probe_duration_seconds", [], duration⟩]
      let reg := if success then applyPoints reg [⟨"probe_success", [], 1⟩] else reg
      .metricsPage 200 reg

/-- Metadata view of one resource probe: its runner, the fetch path it
uses (none for the host probe) and the families it registers. -/
structure ProbeInfo where
  run : Client → Registry → List HttpRequest → ProbeResult
  path : Option String
  fams : List (String × List String)

/-- The fetch requests a probe issues (one or none). -/
def ProbeInfo.fetches (q : ProbeInfo) (c : Client) : List HttpRequest :=
  (q.path.map fun pa => fetchRequest c pa "").toList

/-- The metric names a probe may populate. -/
def ProbeInfo.famNames (q : ProbeInfo) : List String :=
  q.fams.map Prod.fst

/-- The orchestrator's probe sequence, in source order, with each probe's
fetch path and registered families. -/
def probeInfoList (tr : Transport) (pb : String → Option Int) : List ProbeInfo :=
  [⟨probeEnclosureStats tr, some "rest/lsenclosurestats",
      [("spectrum_power_watts", ["enclosure"]), ("spectrum_temperature", ["enclosure"])]⟩,
   ⟨probeEnclosurePSUs tr, some "rest/lsenclosurepsu",
      [("spectrum_psu_status", ["enclosure", "id", "status"])]⟩,
   ⟨probePool tr pb, some "rest/lsmdiskgrp",
      [("spectrum_pool_status", ["id", "name", "status"]),
       ("spectrum_pool_volume_count", ["id", "name"]),
       ("spectrum_pool_capacity_bytes", ["id", "name"]),
       ("spectrum_pool_free_bytes", ["id", "name"]),
       ("spectrum_pool_used_bytes", ["id", "name"])]⟩,
   ⟨probeDrives tr, some "rest/lsdrive",
      [("spectrum_drive_status", ["enclosure", "slot_id", "id", "status"])]⟩,
   ⟨probeNodeStats tr, some "rest/lsnodecanisterstats",
      [("spectrum_node_system_usage_ratio", ["id"]),
       ("spectrum_node_compression_usage_ratio", ["id"]),
       ("spectrum_node_write_cache_usage_ratio", ["id"]),
       ("spectrum_node_total_cache_usage_ratio", ["id"]),
       ("spectrum_node_fc_bps", ["id"]),
       ("spectrum_node_fc_iops", ["id"]),
       ("spectrum_node_iscsi_bps", ["id"]),
       ("spectrum_node_iscsi_iops", ["id"]),
       ("spectrum_node_sas_bps", ["id"]),
       ("spectrum_node_sas_iops", ["id"])]⟩,
   ⟨probeHost tr, none, []⟩,
   ⟨probeFCPorts tr, some "rest/lsportfc",
      [("spectrum_fc_port_status",
          ["node_id", "adapter_location", "adapter_port_id", "wwpn", "status"]),
       ("spectrum_fc_port_speed_bps", ["node_id", "adapter_location", "adapter_port_id"])]⟩,
   ⟨probeIPPorts tr, some "rest/lsportip",
      [("spectrum_ip_port_state",
          ["node_id", "adapter_location", "adapter_port_id", "mac", "state"]),
       ("spectrum_ip_port_link_active", ["node_id", "adapter_location", "adapter_port_id", "mac"]),
       ("spectrum_ip_port_speed_bps", ["node_id", "adapter_location", "adapter_port_id"])]⟩]

/-- Run a sequence of probes with Go's `&&` short-circuiting: stop at the
first probe that reports failure. -/
def runSeq : List ProbeInfo → Client → Registry → List HttpRequest → ProbeResult
  | [], _, reg, log => (true, reg, log)
  | q :: rest, c, reg, log =>
    match q.run c reg log with
    | (false, reg, log) => (false, reg, log)
    | (true, reg, log) => runSeq rest c reg log

/-! ## Structural lemmas -/

/-- The literal `&&` chain of `probe` is the short-circuit run of the
probe sequence. -/
theorem probeAll_eq_runSeq (tr : Transport) (pb : String → Option Int) (c : Client)
    (reg : Registry) (log : List HttpRequest) :
    probeAll tr pb c reg log = runSeq (probeInfoList tr pb) c reg log := by
  simp only [probeInfoList, runSeq, probeAll]
  rcases probeEnclosureStats tr c reg log with ⟨_ | _, reg1, log1⟩ <;> dsimp only
  rcases probeEnclosurePSUs tr c reg1 log1 with ⟨_ | _, reg2, log2⟩ <;> dsimp only
  rcases probePool tr pb c reg2 log2 with ⟨_ | _, reg3, log3⟩ <;> dsimp only
  rcases probeDrives tr c reg3 log3 with ⟨_ | _, reg4, log4⟩ <;> dsimp only
  rcases probeNodeStats tr c reg4 log4 with ⟨_ | _, reg5, log5⟩ <;> dsimp only
  rcases probeHost tr c reg5 log5 with ⟨_ | _, reg6, log6⟩ <;> dsimp only
  rcases probeFCPorts tr c reg6 log6 with ⟨_ | _, reg7, log7⟩ <;> dsimp only
  rcases probeIPPorts tr c reg7 log7 with ⟨_ | _, reg8, log8⟩ <;> rfl

/-- Lemma: `setPoint` leaves an untouched run of series alone when the new point's
metric name does not occur in it. -/
theorem setPoint_append (old tail : List MetricPoint) (p : MetricPoint)
    (h : ∀ q ∈ old, q.name ≠ p.name) :
    setPoint (old ++ tail) p = old ++ setPoint tail p := by
  induction old with
  | nil => rfl
  | cons q qs ih =>
    have hq : q.name ≠ p.name := h q (List.mem_cons_self q qs)
    simp only [List.cons_append, setPoint, hq, false_and, if_false, List.cons.injEq, true_and]
    exact ih fun r hr => h r (List.mem_cons_of_mem q hr)

/-- A batch of `Set` calls whose names avoid an existing prefix only
appends after that prefix. -/
theorem foldl_setPoint_split (pts : List MetricPoint) (old acc : List MetricPoint)
    (h : ∀ p ∈ pts, ∀ q ∈ old, q.name ≠ p.name) :
    pts.foldl setPoint (old ++ acc) = old ++ pts.foldl setPoint acc := by
  induction pts generalizing acc with
  | nil => rfl
  | cons p ps ih =>
    simp only [List.foldl_cons]
    rw [setPoint_append old acc p (h p (List.mem_cons_self p ps))]
    exact ih (setPoint acc p) (fun r hr => h r (List.mem_cons_of_mem p hr))

/-- Every series present after a `Set` call has the name either of the
new point or of one already present. -/
theorem setPoint_name_mem (l : List MetricPoint) (p : MetricPoint) :
    ∀ q ∈ setPoint l p, q.name = p.name ∨ q.name ∈ l.map MetricPoint.name := by
  induction l with
  | nil =>
    intro q hq
    simp only [setPoint, List.mem_singleton] at hq
    subst hq
    exact Or.inl rfl
  | cons r rs ih =>
    intro q hq
    simp only [setPoint] at hq
    split at hq
    · rcases List.mem_cons.mp hq with h | h
      · subst h; exact Or.inl rfl
      · right
        simp only [List.map_cons, List.mem_cons]
        exact Or.inr (List.mem_map_of_mem MetricPoint.name h)
    · rcases List.mem_cons.mp hq with h | h
      · subst h
        right
        simp
      · rcases ih q h with h' | h'
        · exact Or.inl h'
        · right
          simp only [List.map_cons, List.mem_cons]
          exact Or.inr h'

/-- Every series present after a batch of `Set` calls has a name from the
batch or from the starting list. -/
theorem foldl_setPoint_name_mem (pts acc : List MetricPoint) :
    ∀ q ∈ pts.foldl setPoint acc,
      q.name ∈ acc.map MetricPoint.name ∨ q.name ∈ pts.map MetricPoint.name := by
  induction pts generalizing acc with
  | nil => intro q hq; exact Or.inl (List.mem_map_of_mem MetricPoint.name hq)
  | cons p ps ih =>
    intro q hq
    simp only [List.foldl_cons] at hq
    rcases ih (setPoint acc p) q hq with h | h
    · simp only [List.mem_map] at h
      obtain ⟨r, hr, hname⟩ := h
      rcases setPoint_name_mem acc p r hr with h' | h'
      · exact Or.inr (by simp [← hname, h'])
      · exact Or.inl (hname ▸ h')
    · exact Or.inr (List.mem_cons_of_mem _ h)

/-- Lemma: `spectrumPasswordClient.Get` always logs exactly its one request. -/
theorem clientGet_log (tr : Transport) (c : Client) (path query : String)
    (log : List HttpRequest) :
    (clientGet tr c path query log).2 = log ++ [fetchRequest c path query] := by
  simp only [clientGet]
  rcases htr : tr (fetchRequest c path query) with e | ⟨code, body⟩
  · simp [htr]
  · simp only [htr]
    split <;> rfl

/-- Emitting a batch of fresh-named series appends them after the
existing series. -/
theorem applyPoints_split (reg : Registry) (pts : List MetricPoint)
    (h : ∀ p ∈ pts, ∀ q ∈ reg.points, q.name ≠ p.name) :
    ∃ tail, applyPoints reg pts = ⟨reg.families, reg.points ++ tail⟩
      ∧ ∀ p ∈ tail, p.name ∈ pts.map MetricPoint.name := by
  refine ⟨pts.foldl setPoint [], ?_, ?_⟩
  · have := foldl_setPoint_split pts reg.points [] h
    rw [List.append_nil] at this
    simp only [applyPoints, this]
  · intro p hp
    rcases foldl_setPoint_name_mem pts [] p hp with h' | h'
    · simp at h'
    · exact h'

/-- Uniform behaviour of one resource probe: it registers exactly its
families, appends series only under its own metric names (none on
failure) and issues exactly its fetch request. -/
def ProbeShape (q : ProbeInfo) : Prop :=
  ∀ c reg log, (∀ p ∈ reg.points, p.name ∉ q.famNames) →
    ∃ b pts, q.run c reg log
        = (b, ⟨reg.families ++ q.fams, reg.points ++ pts⟩, log ++ q.fetches c)
      ∧ (∀ p ∈ pts, p.name ∈ q.famNames)
      ∧ (b = false → pts = [])

theorem enclosureStatPoints_names (s : EnclosureStat) :
    ∀ p ∈ enclosureStatPoints s,
      p.name ∈ ["spectrum_power_watts", "spectrum_temperature"] := by
  intro p hp
  simp only [enclosureStatPoints] at hp
  split at hp <;> [skip; split at hp] <;> simp_all

theorem drivePoints_names (s : Drive) :
    ∀ p ∈ drivePoints s, p.name ∈ ["spectrum_drive_status"] := by
  intro p hp
  simp only [drivePoints, List.mem_cons] at hp
  rcases hp with rfl | rfl | rfl | hp <;> simp_all

theorem psuPoints_names (s : Psu) :
    ∀ p ∈ psuPoints s, p.name ∈ ["spectrum_psu_status"] := by
  intro p hp
  simp only [psuPoints, List.mem_cons] at hp
  rcases hp with rfl | rfl | rfl | hp <;> simp_all

theorem poolPoints_names (pb : String → Option Int) (s : Pool) :
    ∀ p ∈ poolPoints pb s,
      p.name ∈ ["spectrum_pool_status", "spectrum_pool_volume_count",
        "spectrum_pool_capacity_bytes", "spectrum_pool_free_bytes",
        "spectrum_pool_used_bytes"] := by
  intro p hp
  unfold poolPoints at hp
  rcases List.mem_append.mp hp with hp | hp
  · rcases List.mem_append.mp hp with hp | hp
    · rcases List.mem_append.mp hp with hp | hp
      · simp only [List.mem_cons, List.not_mem_nil, or_false] at hp
        rcases hp with rfl | rfl | rfl <;> simp
      · rcases hpf : pb s.freeCapacity with _ | v <;> rw [hpf] at hp
        · simp at hp
        · simp only [List.mem_singleton] at hp
          subst hp
          simp
    · rcases hpc : pb s.capacity with _ | w <;> rw [hpc] at hp
      · simp at hp
      · simp only [List.mem_singleton] at hp
        subst hp
        simp
  · rcases hpu : pb s.usedCapacity with _ | x <;> rw [hpu] at hp
    · simp at hp
    · simp only [List.mem_singleton] at hp
      subst hp
      simp

set_option maxHeartbeats 1000000 in
theorem nodeStatPoints_names (s : NodeStat) :
    ∀ p ∈ nodeStatPoints s,
      p.name ∈ ["spectrum_node_system_usage_ratio", "spectrum_node_compression_usage_ratio",
        "spectrum_node_write_cache_usage_ratio", "spectrum_node_total_cache_usage_ratio",
        "spectrum_node_fc_bps", "spectrum_node_fc_iops",
        "spectrum_node_iscsi_bps", "spectrum_node_iscsi_iops",
        "spectrum_node_sas_bps", "spectrum_node_sas_iops"] := by
  intro p hp
  unfold nodeStatPoints at hp
  split_ifs at hp <;>
    first
      | exact absurd hp (List.not_mem_nil p)
      | (rw [List.mem_singleton] at hp; subst hp; simp)

theorem fcPortPoints_names (s : FcPort) :
    ∀ p ∈ fcPortPoints s,
      p.name ∈ ["spectrum_fc_port_status", "spectrum_fc_port_speed_bps"] := by
  intro p hp
  simp only [fcPortPoints, List.mem_cons] at hp
  rcases hp with rfl | rfl | rfl | rfl | hp <;> simp_all

theorem ipPortPoints_names (s : IpPort) :
    ∀ p ∈ ipPortPoints s,
      p.name ∈ ["spectrum_ip_port_state", "spectrum_ip_port_link_active",
        "spectrum_ip_port_speed_bps"] := by
  intro p hp
  simp only [ipPortPoints, List.mem_cons] at hp
  rcases hp with rfl | rfl | rfl | rfl | rfl | hp <;> simp_all


theorem names_subset_trans {tail pts : List MetricPoint} {names : List String}
    (h1 : ∀ p ∈ tail, p.name ∈ pts.map MetricPoint.name)
    (h2 : ∀ p ∈ pts, p.name ∈ names) : ∀ p ∈ tail, p.name ∈ names := by
  intro p hp
  rcases List.mem_map.mp (h1 p hp) with ⟨q, hq, he⟩
  exact he ▸ h2 q hq

theorem flatten_map_names {α : Type} (f : α → List MetricPoint) (st : List α)
    (names : List String) (hf : ∀ s, ∀ p ∈ f s, p.name ∈ names) :
    ∀ p ∈ (st.map f).flatten, p.name ∈ names := by
  intro p hp
  rcases List.mem_flatten.mp hp with ⟨l, hl, hpl⟩
  rcases List.mem_map.mp hl with ⟨s, hs, rfl⟩
  exact hf s p hpl

theorem probeEnclosureStats_shape (tr : Transport) :
    ProbeShape ⟨probeEnclosureStats tr, some "rest/lsenclosurestats",
      [("spectrum_power_watts", ["enclosure"]), ("spectrum_temperature", ["enclosure"])]⟩ := by
  intro c reg log hdisj
  simp only [ProbeInfo.famNames] at hdisj
  have hlog := clientGet_log tr c "rest/lsenclosurestats" "" log
  dsimp only [ProbeInfo.fetches, ProbeInfo.famNames]
  unfold probeEnclosureStats
  rcases hget : clientGet tr c "rest/lsenclosurestats" "" log with ⟨res, log₂⟩
  rw [hget] at hlog
  simp only at hlog
  subst hlog
  rcases res with e | body
  · exact ⟨false, [], by simp [mustRegister, ProbeInfo.fetches], by simp, fun _ => rfl⟩
  rcases body with tok | st | st | st | st | st | st | st | _
  case enclosureStats =>
    have hnm := flatten_map_names enclosureStatPoints st _ enclosureStatPoints_names
    obtain ⟨tail, happ, htail⟩ := applyPoints_split
      (mustRegister (mustRegister reg "spectrum_power_watts" ["enclosure"])
        "spectrum_temperature" ["enclosure"])
      ((st.map enclosureStatPoints).flatten)
      (fun p hp q hq => fun he => (hdisj q hq) (he ▸ hnm p hp))
    refine ⟨true, tail, ?_, ?_, by simp⟩
    · dsimp only
      rw [happ]
      simp [mustRegister, ProbeInfo.fetches, List.append_assoc]
    · intro p hp
      simpa using names_subset_trans htail hnm p hp
  all_goals exact ⟨false, [], by simp [mustRegister, ProbeInfo.fetches], by simp, fun _ => rfl⟩


theorem probeEnclosurePSUs_shape (tr : Transport) :
    ProbeShape ⟨probeEnclosurePSUs tr, some "rest/lsenclosurepsu",
      [("spectrum_psu_status", ["enclosure", "id", "status"])]⟩ := by
  intro c reg log hdisj
  simp only [ProbeInfo.famNames] at hdisj
  have hlog := clientGet_log tr c "rest/lsenclosurepsu" "" log
  dsimp only [ProbeInfo.fetches, ProbeInfo.famNames]
  unfold probeEnclosurePSUs
  rcases hget : clientGet tr c "rest/lsenclosurepsu" "" log with ⟨res, log₂⟩
  rw [hget] at hlog
  simp only at hlog
  subst hlog
  rcases res with e | body
  · exact ⟨false, [], by simp [mustRegister, ProbeInfo.fetches], by simp, fun _ => rfl⟩
  rcases body with tok | st | st | st | st | st | st | st | _
  case psus =>
    have hnm := flatten_map_names psuPoints st _ psuPoints_names
    obtain ⟨tail, happ, htail⟩ := applyPoints_split
      (mustRegister reg "spectrum_psu_status" ["enclosure", "id", "status"])
      ((st.map psuPoints).flatten)
      (fun p hp q hq => fun he => (hdisj q hq) (he ▸ hnm p hp))
    refine ⟨true, tail, ?_, ?_, by simp⟩
    · dsimp only
      rw [happ]
      simp [mustRegister, ProbeInfo.fetches, List.append_assoc]
    · intro p hp
      simpa using names_subset_trans htail hnm p hp
  all_goals exact ⟨false, [], by simp [mustRegister, ProbeInfo.fetches], by simp, fun _ => rfl⟩

theorem probePool_shape (tr : Transport) (pb : String → Option Int) :
    ProbeShape ⟨probePool tr pb, some "rest/lsmdiskgrp",
      [("spectrum_pool_status", ["id", "name", "status"]),
       ("spectrum_pool_volume_count", ["id", "name"]),
       ("spectrum_pool_capacity_bytes", ["id", "name"]),
       ("spectrum_pool_free_bytes", ["id", "name"]),
       ("spectrum_pool_used_bytes", ["id", "name"])]⟩ := by
  intro c reg log hdisj
  simp only [ProbeInfo.famNames] at hdisj
  have hlog := clientGet_log tr c "rest/lsmdiskgrp" "" log
  dsimp only [ProbeInfo.fetches, ProbeInfo.famNames]
  unfold probePool
  rcases hget : clientGet tr c "rest/lsmdiskgrp" "" log with ⟨res, log₂⟩
  rw [hget] at hlog
  simp only at hlog
  subst hlog
  rcases res with e | body
  · exact ⟨false, [], by simp [mustRegister, ProbeInfo.fetches], by simp, fun _ => rfl⟩
  rcases body with tok | st | st | st | st | st | st | st | _
  case pools =>
    have hnm := flatten_map_names (poolPoints pb) st _ (poolPoints_names pb)
    obtain ⟨tail, happ, htail⟩ := applyPoints_split
      (mustRegister (mustRegister (mustRegister (mustRegister (mustRegister reg
        "spectrum_pool_status" ["id", "name", "status"])
        "spectrum_pool_volume_count" ["id", "name"])
        "spectrum_pool_capacity_bytes" ["id", "name"])
        "spectrum_pool_free_bytes" ["id", "name"])
        "spectrum_pool_used_bytes" ["id", "name"])
      ((st.map (poolPoints pb)).flatten)
      (fun p hp q hq => fun he => (hdisj q hq) (he ▸ hnm p hp))
    refine ⟨true, tail, ?_, ?_, by simp⟩
    · dsimp only
      rw [happ]
      simp [mustRegister, ProbeInfo.fetches, List.append_assoc]
    · intro p hp
      simpa using names_subset_trans htail hnm p hp
  all_goals exact ⟨false, [], by simp [mustRegister, ProbeInfo.fetches], by simp, fun _ => rfl⟩

theorem probeDrives_shape (tr : Transport) :
    ProbeShape ⟨probeDrives tr, some "rest/lsdrive",
      [("spectrum_drive_status", ["enclosure", "slot_id", "id", "status"])]⟩ := by
  intro c reg log hdisj
  simp only [ProbeInfo.famNames] at hdisj
  have hlog := clientGet_log tr c "rest/lsdrive" "" log
  dsimp only [ProbeInfo.fetches, ProbeInfo.famNames]
  unfold probeDrives
  rcases hget : clientGet tr c "rest/lsdrive" "" log with ⟨res, log₂⟩
  rw [hget] at hlog
  simp only at hlog
  subst hlog
  rcases res with e | body
  · exact ⟨false, [], by simp [mustRegister, ProbeInfo.fetches], by simp, fun _ => rfl⟩
  rcases body with tok | st | st | st | st | st | st | st | _
  case drives =>
    have hnm := flatten_map_names drivePoints st _ drivePoints_names
    obtain ⟨tail, happ, htail⟩ := applyPoints_split
      (mustRegister reg "spectrum_drive_status" ["enclosure", "slot_id", "id", "status"])
      ((st.map drivePoints).flatten)
      (fun p hp q hq => fun he => (hdisj q hq) (he ▸ hnm p hp))
    refine ⟨true, tail, ?_, ?_, by simp⟩
    · dsimp only
      rw [happ]
      simp [mustRegister, ProbeInfo.fetches, List.append_assoc]
    · intro p hp
      simpa using names_subset_trans htail hnm p hp
  all_goals exact ⟨false, [], by simp [mustRegister, ProbeInfo.fetches], by simp, fun _ => rfl⟩

theorem probeNodeStats_shape (tr : Transport) :
    ProbeShape ⟨probeNodeStats tr, some "rest/lsnodecanisterstats",
      [("spectrum_node_system_usage_ratio", ["id"]),
       ("spectrum_node_compression_usage_ratio", ["id"]),
       ("spectrum_node_write_cache_usage_ratio", ["id"]),
       ("spectrum_node_total_cache_usage_ratio", ["id"]),
       ("spectrum_node_fc_bps", ["id"]),
       ("spectrum_node_fc_iops", ["id"]),
       ("spectrum_node_iscsi_bps", ["id"]),
       ("spectrum_node_iscsi_iops", ["id"]),
       ("spectrum_node_sas_bps", ["id"]),
       ("spectrum_node_sas_iops", ["id"])]⟩ := by
  intro c reg log hdisj
  simp only [ProbeInfo.famNames] at hdisj
  have hlog := clientGet_log tr c "rest/lsnodecanisterstats" "" log
  dsimp only [ProbeInfo.fetches, ProbeInfo.famNames]
  unfold probeNodeStats
  rcases hget : clientGet tr c "rest/lsnodecanisterstats" "" log with ⟨res, log₂⟩
  rw [hget] at hlog
  simp only at hlog
  subst hlog
  rcases res with e | body
  · exact ⟨false, [], by simp [mustRegister, ProbeInfo.fetches], by simp, fun _ => rfl⟩
  rcases body with tok | st | st | st | st | st | st | st | _
  case nodeStats =>
    have hnm := flatten_map_names nodeStatPoints st _ nodeStatPoints_names
    obtain ⟨tail, happ, htail⟩ := applyPoints_split
      (mustRegister (mustRegister (mustRegister (mustRegister (mustRegister
      (mustRegister (mustRegister (mustRegister (mustRegister (mustRegister reg
        "spectrum_node_system_usage_ratio" ["id"])
        "spectrum_node_compression_usage_ratio" ["id"])
        "spectrum_node_write_cache_usage_ratio" ["id"])
        "spectrum_node_total_cache_usage_ratio" ["id"])
        "spectrum_node_fc_bps" ["id"])
        "spectrum_node_fc_iops" ["id"])
        "spectrum_node_iscsi_bps" ["id"])
        "spectrum_node_iscsi_iops" ["id"])
        "spectrum_node_sas_bps" ["id"])
        "spectrum_node_sas_iops" ["id"])
      ((st.map nodeStatPoints).flatten)
      (fun p hp q hq => fun he => (hdisj q hq) (he ▸ hnm p hp))
    refine ⟨true, tail, ?_, ?_, by simp⟩
    · dsimp only
      rw [happ]
      simp [mustRegister, ProbeInfo.fetches, List.append_assoc]
    · intro p hp
      simpa using names_subset_trans htail hnm p hp
  all_goals exact ⟨false, [], by simp [mustRegister, ProbeInfo.fetches], by simp, fun _ => rfl⟩

theorem probeFCPorts_shape (tr : Transport) :
    ProbeShape ⟨probeFCPorts tr, some "rest/lsportfc",
      [("spectrum_fc_port_status",
          ["node_id", "adapter_location", "adapter_port_id", "wwpn", "status"]),
       ("spectrum_fc_port_speed_bps", ["node_id", "adapter_location", "adapter_port_id"])]⟩ := by
  intro c reg log hdisj
  simp only [ProbeInfo.famNames] at hdisj
  have hlog := clientGet_log tr c "rest/lsportfc" "" log
  dsimp only [ProbeInfo.fetches, ProbeInfo.famNames]
  unfold probeFCPorts
  rcases hget : clientGet tr c "rest/lsportfc" "" log with ⟨res, log₂⟩
  rw [hget] at hlog
  simp only at hlog
  subst hlog
  rcases res with e | body
  · exact ⟨false, [], by simp [mustRegister, ProbeInfo.fetches], by simp, fun _ => rfl⟩
  rcases body with tok | st | st | st | st | st | st | st | _
  case fcPorts =>
    have hnm := flatten_map_names fcPortPoints st _ fcPortPoints_names
    obtain ⟨tail, happ, htail⟩ := applyPoints_split
      (mustRegister (mustRegister reg "spectrum_fc_port_status"
        ["node_id", "adapter_location", "adapter_port_id", "wwpn", "status"])
        "spectrum_fc_port_speed_bps" ["node_id", "adapter_location", "adapter_port_id"])
      ((st.map fcPortPoints).flatten)
      (fun p hp q hq => fun he => (hdisj q hq) (he ▸ hnm p hp))
    refine ⟨true, tail, ?_, ?_, by simp⟩
    · dsimp only
      rw [happ]
      simp [mustRegister, ProbeInfo.fetches, List.append_assoc]
    · intro p hp
      simpa using names_subset_trans htail hnm p hp
  all_goals exact ⟨false, [], by simp [mustRegister, ProbeInfo.fetches], by simp, fun _ => rfl⟩

theorem probeIPPorts_shape (tr : Transport) :
    ProbeShape ⟨probeIPPorts tr, some "rest/lsportip",
      [("spectrum_ip_port_state",
          ["node_id", "adapter_location", "adapter_port_id", "mac", "state"]),
       ("spectrum_ip_port_link_active", ["node_id", "adapter_location", "adapter_port_id", "mac"]),
       ("spectrum_ip_port_speed_bps", ["node_id", "adapter_location", "adapter_port_id"])]⟩ := by
  intro c reg log hdisj
  simp only [ProbeInfo.famNames] at hdisj
  have hlog := clientGet_log tr c "rest/lsportip" "" log
  dsimp only [ProbeInfo.fetches, ProbeInfo.famNames]
  unfold probeIPPorts
  rcases hget : clientGet tr c "rest/lsportip" "" log with ⟨res, log₂⟩
  rw [hget] at hlog
  simp only at hlog
  subst hlog
  rcases res with e | body
  · exact ⟨false, [], by simp [mustRegister, ProbeInfo.fetches], by simp, fun _ => rfl⟩
  rcases body with tok | st | st | st | st | st | st | st | _
  case ipPorts =>
    have hnm := flatten_map_names ipPortPoints st _ ipPortPoints_names
    obtain ⟨tail, happ, htail⟩ := applyPoints_split
      (mustRegister (mustRegister (mustRegister reg "spectrum_ip_port_state"
        ["node_id", "adapter_location", "adapter_port_id", "mac", "state"])
        "spectrum_ip_port_link_active" ["node_id", "adapter_location", "adapter_port_id", "mac"])
        "spectrum_ip_port_speed_bps" ["node_id", "adapter_location", "adapter_port_id"])
      ((st.map ipPortPoints).flatten)
      (fun p hp q hq => fun he => (hdisj q hq) (he ▸ hnm p hp))
    refine ⟨true, tail, ?_, ?_, by simp⟩
    · dsimp only
      rw [happ]
      simp [mustRegister, ProbeInfo.fetches, List.append_assoc]
    · intro p hp
      simpa using names_subset_trans htail hnm p hp
  all_goals exact ⟨false, [], by simp [mustRegister, ProbeInfo.fetches], by simp, fun _ => rfl⟩

theorem probeHost_shape (tr : Transport) : ProbeShape ⟨probeHost tr, none, []⟩ := by
  intro c reg log hdisj
  exact ⟨true, [], by simp [probeHost, ProbeInfo.fetches], by simp, by simp⟩

/-- All series names any probe may emit, in sequence order. -/
def spectrumMetricNames : List String :=
  ["spectrum_power_watts", "spectrum_temperature",
   "spectrum_psu_status",
   "spectrum_pool_status", "spectrum_pool_volume_count", "spectrum_pool_capacity_bytes",
   "spectrum_pool_free_bytes", "spectrum_pool_used_bytes",
   "spectrum_drive_status",
   "spectrum_node_system_usage_ratio", "spectrum_node_compression_usage_ratio",
   "spectrum_node_write_cache_usage_ratio", "spectrum_node_total_cache_usage_ratio",
   "spectrum_node_fc_bps", "spectrum_node_fc_iops",
   "spectrum_node_iscsi_bps", "spectrum_node_iscsi_iops",
   "spectrum_node_sas_bps", "spectrum_node_sas_iops",
   "spectrum_fc_port_status", "spectrum_fc_port_speed_bps",
   "spectrum_ip_port_state", "spectrum_ip_port_link_active", "spectrum_ip_port_speed_bps"]

theorem probeInfoList_famNames (tr : Transport) (pb : String → Option Int) :
    ((probeInfoList tr pb).map ProbeInfo.famNames).flatten = spectrumMetricNames := rfl

theorem probeInfoList_shapes (tr : Transport) (pb : String → Option Int) :
    ∀ q ∈ probeInfoList tr pb, ProbeShape q := by
  intro q hq
  simp only [probeInfoList, List.mem_cons] at hq
  rcases hq with rfl | rfl | rfl | rfl | rfl | rfl | rfl | rfl | h
  · exact probeEnclosureStats_shape tr
  · exact probeEnclosurePSUs_shape tr
  · exact probePool_shape tr pb
  · exact probeDrives_shape tr
  · exact probeNodeStats_shape tr
  · exact probeHost_shape tr
  · exact probeFCPorts_shape tr
  · exact probeIPPorts_shape tr
  · exact absurd h (by simp)

theorem probeInfoList_pairwise (tr : Transport) (pb : String → Option Int) :
    List.Pairwise (fun a b => ∀ n ∈ a.famNames, n ∉ b.famNames) (probeInfoList tr pb) := by
  simp only [probeInfoList, List.pairwise_cons]
  refine ⟨?_, ?_, ?_, ?_, ?_, ?_, ?_, ?_, List.Pairwise.nil⟩ <;>
    intro a ha <;> fin_cases ha <;> simp [ProbeInfo.famNames]

/-- Short-circuit execution of a shapely, name-disjoint probe sequence:
either every probe succeeds and the sink and log grow by exactly the full
sequence's families, series and fetches, or there is a first failing
probe `k` and they grow by exactly the prefix up to `k` (probe `k`
contributing its families and fetch but no series). -/
theorem runSeq_shape (l : List ProbeInfo) (hs : ∀ q ∈ l, ProbeShape q)
    (hpw : List.Pairwise (fun a b => ∀ n ∈ a.famNames, n ∉ b.famNames) l) :
    ∀ c reg log, (∀ p ∈ reg.points, p.name ∉ (l.map ProbeInfo.famNames).flatten) →
      (∃ pts, runSeq l c reg log
          = (true, ⟨reg.families ++ (l.map ProbeInfo.fams).flatten, reg.points ++ pts⟩,
              log ++ (l.map (fun q => q.fetches c)).flatten)
        ∧ ∀ p ∈ pts, p.name ∈ (l.map ProbeInfo.famNames).flatten)
      ∨ (∃ k pts, k < l.length
        ∧ runSeq l c reg log
          = (false, ⟨reg.families ++ ((l.take (k+1)).map ProbeInfo.fams).flatten,
              reg.points ++ pts⟩,
              log ++ ((l.take (k+1)).map (fun q => q.fetches c)).flatten)
        ∧ ∀ p ∈ pts, p.name ∈ ((l.take k).map ProbeInfo.famNames).flatten) := by
  induction l with
  | nil =>
    intro c reg log hreg
    left
    exact ⟨[], by simp [runSeq], by simp⟩
  | cons q rest ih =>
    intro c reg log hreg
    have hsub1 : ∀ p ∈ reg.points, p.name ∉ q.famNames := by
      intro p hp hn
      apply hreg p hp
      simp only [List.map_cons, List.flatten_cons, List.mem_append]
      exact Or.inl hn
    obtain ⟨b, pts0, hrun, hnames0, hfail⟩ := hs q (List.mem_cons_self q rest) c reg log hsub1
    rcases hpw with _ | ⟨hd, hpw'⟩
    cases b
    · right
      have hpts : pts0 = [] := hfail rfl
      subst hpts
      refine ⟨0, [], by simp, ?_, by simp⟩
      simp only [runSeq, hrun]
      simp
    · have hreg' : ∀ p ∈ (Registry.mk (reg.families ++ q.fams) (reg.points ++ pts0)).points,
          p.name ∉ (rest.map ProbeInfo.famNames).flatten := by
        intro p hp hn
        rcases List.mem_append.mp hp with hp | hp
        · apply hreg p hp
          simp only [List.map_cons, List.flatten_cons, List.mem_append]
          exact Or.inr hn
        · rcases List.mem_flatten.mp hn with ⟨ns, hns, hnn⟩
          rcases List.mem_map.mp hns with ⟨a, ha, rfl⟩
          exact hd a ha p.name (hnames0 p hp) hnn
      have hstep : runSeq (q :: rest) c reg log
          = runSeq rest c ⟨reg.families ++ q.fams, reg.points ++ pts0⟩ (log ++ q.fetches c) := by
        simp only [runSeq, hrun]
      rcases ih (fun a ha => hs a (List.mem_cons_of_mem q ha)) hpw' c
          ⟨reg.families ++ q.fams, reg.points ++ pts0⟩ (log ++ q.fetches c) hreg'
        with ⟨pts1, hrec, hnames1⟩ | ⟨k, pts1, hk, hrec, hnames1⟩
      · left
        refine ⟨pts0 ++ pts1, ?_, ?_⟩
        · rw [hstep, hrec]
          simp [List.append_assoc]
        · intro p hp
          simp only [List.map_cons, List.flatten_cons, List.mem_append]
          rcases List.mem_append.mp hp with hp | hp
          · exact Or.inl (hnames0 p hp)
          · exact Or.inr (hnames1 p hp)
      · right
        refine ⟨k + 1, pts0 ++ pts1, by simpa using Nat.succ_lt_succ hk, ?_, ?_⟩
        · rw [hstep, hrec]
          simp [List.append_assoc]
        · intro p hp
          simp only [List.take_succ_cons, List.map_cons, List.flatten_cons, List.mem_append]
          rcases List.mem_append.mp hp with hp | hp
          · exact Or.inl (hnames0 p hp)
          · exact Or.inr (hnames1 p hp)

/-- Successful client construction: there was a complete credential entry
for the normalized target, exactly the login request was issued, and the
client carries the normalized target. -/
theorem newSpectrumClient_ok (tr : Transport) (am : List (String × Auth)) (tgt : URL)
    (log₀ : List HttpRequest) (c : Client) (log₁ : List HttpRequest)
    (h : newSpectrumClient tr am tgt log₀ = (.ok c, log₁)) :
    ∃ a tok, am.lookup (urlString tgt) = some a ∧ a.user ≠ "" ∧ a.password ≠ ""
      ∧ log₁ = log₀ ++ [authRequest tgt a.user a.password] ∧ c = ⟨tgt, tok⟩ := by
  rcases hl : am.lookup (urlString tgt) with _ | a
  · simp only [newSpectrumClient, hl] at h
    exact absurd h (by simp)
  · simp only [newSpectrumClient, hl] at h
    by_cases hcred : a.user ≠ "" ∧ a.password ≠ ""
    · rw [if_pos hcred] at h
      simp only [newSpectrumPasswordClient] at h
      rcases htr : tr (authRequest tgt a.user a.password) with e | ⟨code, body⟩ <;>
        simp only [htr] at h
      · exact absurd h (by simp)
      · by_cases hcode : code ≠ 200
        · rw [if_pos hcode] at h
          exact absurd h (by simp)
        · rw [if_neg hcode] at h
          rcases body with tok | st | st | st | st | st | st | st | _ <;> simp only at h
          · refine ⟨a, tok, rfl, hcred.1, hcred.2, ?_, ?_⟩ <;> simp_all
          all_goals exact absurd h (by simp)
    · rw [if_neg hcred] at h
      exact absurd h (by simp)

/-- Shape of every run of the orchestrator that reaches the probe chain
(`probe` returned Go's `nil` error): the target parsed with an http(s)
scheme, a complete credential entry existed for the normalized
scheme-host target, the login request was issued first, and then either
all eight probes ran (flag `true`) or exactly the first `k+1` probes ran
with the `k`-th failing (flag `false`): later probes issued no fetch and
registered nothing. -/
theorem probe_ok_shape (env : Env) (target : String) (reg : Registry)
    (hreg : ∀ p ∈ reg.points, p.name ∉ spectrumMetricNames)
    (b : Bool) (regF : Registry) (logF : List HttpRequest)
    (h : probe env target reg = (.ok b, regF, logF)) :
    ∃ tgt a tok,
      env.parseURL target = .ok tgt
      ∧ (tgt.scheme = "https" ∨ tgt.scheme = "http")
      ∧ env.authMap.lookup (urlString ⟨tgt.scheme, tgt.host, "", "", ""⟩) = some a
      ∧ ((b = true ∧ ∃ pts,
            regF = ⟨reg.families
                ++ (((probeInfoList env.transport env.parseBase2Bytes).map ProbeInfo.fams).flatten),
              reg.points ++ pts⟩
            ∧ logF = authRequest ⟨tgt.scheme, tgt.host, "", "", ""⟩ a.user a.password
                :: ((probeInfoList env.transport env.parseBase2Bytes).map
                      (fun q => q.fetches ⟨⟨tgt.scheme, tgt.host, "", "", ""⟩, tok⟩)).flatten
            ∧ ∀ p ∈ pts, p.name ∈ spectrumMetricNames)
        ∨ (b = false ∧ ∃ k pts, k < 8
            ∧ regF = ⟨reg.families
                ++ ((((probeInfoList env.transport env.parseBase2Bytes).take (k+1)).map
                      ProbeInfo.fams).flatten),
              reg.points ++ pts⟩
            ∧ logF = authRequest ⟨tgt.scheme, tgt.host, "", "", ""⟩ a.user a.password
                :: (((probeInfoList env.transport env.parseBase2Bytes).take (k+1)).map
                      (fun q => q.fetches ⟨⟨tgt.scheme, tgt.host, "", "", ""⟩, tok⟩)).flatten
            ∧ ∀ p ∈ pts, p.name ∈
                ((((probeInfoList env.transport env.parseBase2Bytes).take k).map
                    ProbeInfo.famNames).flatten))) := by
  unfold probe at h
  rcases hpu : env.parseURL target with e | tgt <;> rw [hpu] at h <;> simp only at h
  · exact absurd h (by simp)
  by_cases hsch : tgt.scheme ≠ "https" ∧ tgt.scheme ≠ "http"
  · rw [if_pos hsch] at h
    exact absurd h (by simp)
  rw [if_neg hsch] at h
  rcases hnc : newSpectrumClient env.transport env.authMap ⟨tgt.scheme, tgt.host, "", "", ""⟩ []
    with ⟨cres, log₁⟩
  rw [hnc] at h
  rcases cres with e | c
  · simp only at h
    exact absurd h (by simp)
  simp only at h
  obtain ⟨a, tok, hlook, hu, hp, hlog₁, hc⟩ :=
    newSpectrumClient_ok env.transport env.authMap ⟨tgt.scheme, tgt.host, "", "", ""⟩ [] c log₁ hnc
  subst hc
  rcases hall : probeAll env.transport env.parseBase2Bytes ⟨⟨tgt.scheme, tgt.host, "", "", ""⟩, tok⟩ reg log₁
    with ⟨ball, regA, logA⟩
  rw [hall] at h
  simp only [Prod.mk.injEq, Except.ok.injEq] at h
  obtain ⟨hb, hregF, hlogF⟩ := h
  subst hb hregF hlogF
  rw [probeAll_eq_runSeq] at hall
  have hreg' : ∀ p ∈ reg.points,
      p.name ∉ (((probeInfoList env.transport env.parseBase2Bytes).map ProbeInfo.famNames).flatten) := by
    rw [probeInfoList_famNames]
    exact hreg
  rcases runSeq_shape (probeInfoList env.transport env.parseBase2Bytes)
      (probeInfoList_shapes env.transport env.parseBase2Bytes)
      (probeInfoList_pairwise env.transport env.parseBase2Bytes)
      ⟨⟨tgt.scheme, tgt.host, "", "", ""⟩, tok⟩ reg log₁ hreg'
    with ⟨pts, hrun, hnames⟩ | ⟨k, pts, hk, hrun, hnames⟩
  · rw [hall] at hrun
    simp only [Prod.mk.injEq] at hrun
    obtain ⟨hb', hregA, hlogA⟩ := hrun
    refine ⟨tgt, a, tok, rfl, by tauto, hlook, Or.inl ⟨hb', pts, hregA, ?_, ?_⟩⟩
    · rw [hlogA, hlog₁]
      simp
    · intro p hp
      have := hnames p hp
      rwa [probeInfoList_famNames] at this
  · rw [hall] at hrun
    simp only [Prod.mk.injEq] at hrun
    obtain ⟨hb', hregA, hlogA⟩ := hrun
    refine ⟨tgt, a, tok, rfl, by tauto, hlook,
      Or.inr ⟨hb', k, pts, by simpa using hk, hregA, ?_, hnames⟩⟩
    rw [hlogA, hlog₁]
    simp

/-! ## Claim theorems -/

/-- C10: the orchestrator's eight-probe sequence contains the host probe
in sixth position; it touches neither the sink nor the log, performs no
fetch and always reports success, so it cannot affect the overall flag. -/
theorem claim_c10_host_probe_noop :
    (∀ (tr : Transport) (pb : String → Option Int) (c : Client) (reg : Registry)
        (log : List HttpRequest),
      probeAll tr pb c reg log = runSeq (probeInfoList tr pb) c reg log)
    ∧ (∀ (tr : Transport) (pb : String → Option Int),
        (probeInfoList tr pb).length = 8
        ∧ (probeInfoList tr pb)[5]? = some ⟨probeHost tr, none, []⟩)
    ∧ (∀ (tr : Transport) (c : Client) (reg : Registry) (log : List HttpRequest),
        probeHost tr c reg log = (true, reg, log)) := by
  refine ⟨probeAll_eq_runSeq, fun tr pb => ⟨rfl, rfl⟩, fun tr c reg log => rfl⟩

/-- C4: a target whose normalized scheme-host key is absent from the
credential map, or whose entry has an empty user or password, makes the
probe fail with an error before any request reaches the transport. -/
theorem claim_c4_missing_credentials_no_request (env : Env) (target : String)
    (tgt : URL) (reg : Registry)
    (hpu : env.parseURL target = .ok tgt)
    (hcred : env.authMap.lookup (urlString ⟨tgt.scheme, tgt.host, "", "", ""⟩) = none
      ∨ ∃ a, env.authMap.lookup (urlString ⟨tgt.scheme, tgt.host, "", "", ""⟩) = some a
          ∧ (a.user = "" ∨ a.password = "")) :
    ∃ e, probe env target reg = (.error e, reg, []) := by
  unfold probe
  rw [hpu]
  simp only
  by_cases hsch : tgt.scheme ≠ "https" ∧ tgt.scheme ≠ "http"
  · rw [if_pos hsch]
    exact ⟨_, rfl⟩
  · rw [if_neg hsch]
    rcases hcred with hnone | ⟨a, hsome, hbad⟩
    · simp only [newSpectrumClient, hnone]
      exact ⟨_, rfl⟩
    · simp only [newSpectrumClient, hsome]
      have hno : ¬(a.user ≠ "" ∧ a.password ≠ "") := by tauto
      rw [if_neg hno]
      exact ⟨_, rfl⟩

def envC4 : Env :=
  ⟨fun s => if s = "http://h" then .ok ⟨"http", "h", "", "", ""⟩ else .error "bad",
   fun _ => .transportError "net", [], fun _ => none⟩

theorem claim_c4_witness :
    ∃ e, probe envC4 "http://h" ⟨[], []⟩ = (.error e, ⟨[], []⟩, []) :=
  claim_c4_missing_credentials_no_request envC4 "http://h" ⟨"http", "h", "", "", ""⟩ ⟨[], []⟩
    rfl (Or.inl rfl)

/-- C6: for a drive or PSU record whose status is one of the three known
values, the emitted tri-state indicator set has exactly three series, all
named after the probe's status metric, exactly one of them carrying 1 —
the one whose status label matches the record — and the others 0. -/
theorem claim_c6_onehot_known_status (d : Drive) (u : Psu)
    (hd : d.status = "online" ∨ d.status = "offline" ∨ d.status = "degraded")
    (hu : u.status = "online" ∨ u.status = "offline" ∨ u.status = "degraded") :
    ((drivePoints d).length = 3
      ∧ ((drivePoints d).filter (fun p => p.value = 1)).length = 1
      ∧ (∀ p ∈ drivePoints d,
          p.name = "spectrum_drive_status"
          ∧ (p.value = 1 ∨ p.value = 0)
          ∧ (p.value = 1 ↔ p.labels
              = [("enclosure", d.enclosureId), ("slot_id", d.slotId), ("id", d.id),
                 ("status", d.status)])))
    ∧ ((psuPoints u).length = 3
      ∧ ((psuPoints u).filter (fun p => p.value = 1)).length = 1
      ∧ (∀ p ∈ psuPoints u,
          p.name = "spectrum_psu_status"
          ∧ (p.value = 1 ∨ p.value = 0)
          ∧ (p.value = 1 ↔ p.labels
              = [("enclosure", u.enclosureId), ("id", u.psuId), ("status", u.status)]))) := by
  constructor
  · rcases hd with hd | hd | hd <;>
      refine ⟨rfl, ?_, ?_⟩ <;>
      simp [drivePoints, statusOneHot, hd]
  · rcases hu with hu | hu | hu <;>
      refine ⟨rfl, ?_, ?_⟩ <;>
      simp [psuPoints, statusOneHot, hu]

theorem claim_c6_witness :
    (("degraded" = "online" ∨ "degraded" = "offline" ∨ "degraded" = "degraded")
      ∧ ("offline" = "online" ∨ "offline" = "offline" ∨ "offline" = "degraded"))
    ∧ ((drivePoints ⟨"7", "degraded", "", "", "2", "", "", "1"⟩).filter
        (fun p => p.value = 1)).length = 1 := by
  refine ⟨⟨Or.inr (Or.inr rfl), Or.inr (Or.inl rfl)⟩, ?_⟩
  exact (claim_c6_onehot_known_status ⟨"7", "degraded", "", "", "2", "", "", "1"⟩
    ⟨"offline", "p1", "1"⟩ (Or.inr (Or.inr rfl)) (Or.inr (Or.inl rfl))).1.2.1

/-- C7: the node-stats dispatch maps each percentage stat to the parsed
integer divided by 100, each MB/s stat to the parsed integer times
1024·1024 = 1048576, each IOPS stat to the parsed integer unchanged; in
particular "24" under compression_cpu_pc yields 0.24 and "1" under fc_mb
yields 1048576. -/
theorem claim_c7_nodestats_dispatch (s : NodeStat) :
    ((s.statName = "compression_cpu_pc" → nodeStatPoints s
        = [⟨"spectrum_node_compression_usage_ratio", [("id", s.nodeId)], (s.statCurrent : ℚ) / 100⟩])
    ∧ (s.statName = "cpu_pc" → nodeStatPoints s
        = [⟨"spectrum_node_system_usage_ratio", [("id", s.nodeId)], (s.statCurrent : ℚ) / 100⟩])
    ∧ (s.statName = "write_cache_pc" → nodeStatPoints s
        = [⟨"spectrum_node_write_cache_usage_ratio", [("id", s.nodeId)], (s.statCurrent : ℚ) / 100⟩])
    ∧ (s.statName = "total_cache_pc" → nodeStatPoints s
        = [⟨"spectrum_node_total_cache_usage_ratio", [("id", s.nodeId)], (s.statCurrent : ℚ) / 100⟩]))
    ∧ ((s.statName = "fc_mb" → nodeStatPoints s
        = [⟨"spectrum_node_fc_bps", [("id", s.nodeId)], (s.statCurrent : ℚ) * 1048576⟩])
    ∧ (s.statName = "iscsi_mb" → nodeStatPoints s
        = [⟨"spectrum_node_iscsi_bps", [("id", s.nodeId)], (s.statCurrent : ℚ) * 1048576⟩])
    ∧ (s.statName = "sas_mb" → nodeStatPoints s
        = [⟨"spectrum_node_sas_bps", [("id", s.nodeId)], (s.statCurrent : ℚ) * 1048576⟩]))
    ∧ ((s.statName = "fc_io" → nodeStatPoints s
        = [⟨"spectrum_node_fc_iops", [("id", s.nodeId)], (s.statCurrent : ℚ)⟩])
    ∧ (s.statName = "iscsi_io" → nodeStatPoints s
        = [⟨"spectrum_node_iscsi_iops", [("id", s.nodeId)], (s.statCurrent : ℚ)⟩])
    ∧ (s.statName = "sas_io" → nodeStatPoints s
        = [⟨"spectrum_node_sas_iops", [("id", s.nodeId)], (s.statCurrent : ℚ)⟩]))
    ∧ nodeStatPoints ⟨"n1", "compression_cpu_pc", 24⟩
        = [⟨"spectrum_node_compression_usage_ratio", [("id", "n1")], 0.24⟩]
    ∧ nodeStatPoints ⟨"n1", "fc_mb", 1⟩
        = [⟨"spectrum_node_fc_bps", [("id", "n1")], 1048576⟩] := by
  obtain ⟨nid, sn, cur⟩ := s
  refine ⟨⟨?_, ?_, ?_, ?_⟩, ⟨?_, ?_, ?_⟩, ⟨?_, ?_, ?_⟩, ?_, ?_⟩ <;>
    first
      | (intro h
         subst h
         simp [nodeStatPoints]
         try ring)
      | (simp [nodeStatPoints]
         try norm_num)

theorem claim_c7_witness :
    (⟨"n1", "fc_mb", 3⟩ : NodeStat).statName = "fc_mb"
    ∧ nodeStatPoints ⟨"n1", "fc_mb", 3⟩
        = [⟨"spectrum_node_fc_bps", [("id", "n1")], (3 : ℚ) * 1048576⟩] :=
  ⟨rfl, (claim_c7_nodestats_dispatch ⟨"n1", "fc_mb", 3⟩).2.1.1 rfl⟩

def trC2 : Transport := fun _ =>
  .response 200 (.drives [⟨"7", "flaky", "member", "5TiB", "2", "", "", "1"⟩])

/-- C2 counterexample: a drive record whose status is the unknown value
"flaky" does not yield zero series — the probe emits all three known
status series for that record, each with value 0. -/
theorem claim_c2_counterexample :
    (probeDrives trC2 ⟨⟨"https", "h", "", "", ""⟩, "t"⟩ ⟨[], []⟩ []).2.1.points
      = [⟨"spectrum_drive_status",
            [("enclosure", "1"), ("slot_id", "2"), ("id", "7"), ("status", "online")], 0⟩,
         ⟨"spectrum_drive_status",
            [("enclosure", "1"), ("slot_id", "2"), ("id", "7"), ("status", "offline")], 0⟩,
         ⟨"spectrum_drive_status",
            [("enclosure", "1"), ("slot_id", "2"), ("id", "7"), ("status", "degraded")], 0⟩]
    ∧ (probeDrives trC2 ⟨⟨"https", "h", "", "", ""⟩, "t"⟩ ⟨[], []⟩ []).2.1.points ≠ [] := by
  constructor <;> decide

/-- C2 amended: a record with an unrecognized status yields all three
known-status indicator series with value 0 (no series with value 1),
rather than no series at all. -/
theorem claim_c2_amended_unknown_status_zeroes (d : Drive) (u : Psu)
    (hd : d.status ≠ "online" ∧ d.status ≠ "offline" ∧ d.status ≠ "degraded")
    (hu : u.status ≠ "online" ∧ u.status ≠ "offline" ∧ u.status ≠ "degraded") :
    drivePoints d
      = [⟨"spectrum_drive_status",
            [("enclosure", d.enclosureId), ("slot_id", d.slotId), ("id", d.id),
             ("status", "online")], 0⟩,
         ⟨"spectrum_drive_status",
            [("enclosure", d.enclosureId), ("slot_id", d.slotId), ("id", d.id),
             ("status", "offline")], 0⟩,
         ⟨"spectrum_drive_status",
            [("enclosure", d.enclosureId), ("slot_id", d.slotId), ("id", d.id),
             ("status", "degraded")], 0⟩]
    ∧ psuPoints u
      = [⟨"spectrum_psu_status",
            [("enclosure", u.enclosureId), ("id", u.psuId), ("status", "online")], 0⟩,
         ⟨"spectrum_psu_status",
            [("enclosure", u.enclosureId), ("id", u.psuId), ("status", "offline")], 0⟩,
         ⟨"spectrum_psu_status",
            [("enclosure", u.enclosureId), ("id", u.psuId), ("status", "degraded")], 0⟩] := by
  constructor <;> simp [drivePoints, psuPoints, statusOneHot, hd.1, hd.2.1, hd.2.2,
    hu.1, hu.2.1, hu.2.2]

theorem claim_c2_amended_witness :
    (("flaky" ≠ "online" ∧ "flaky" ≠ "offline" ∧ "flaky" ≠ "degraded")
      ∧ ("???" ≠ "online" ∧ "???" ≠ "offline" ∧ "???" ≠ "degraded"))
    ∧ drivePoints ⟨"7", "flaky", "member", "5TiB", "2", "", "", "1"⟩
      = [⟨"spectrum_drive_status",
            [("enclosure", "1"), ("slot_id", "2"), ("id", "7"), ("status", "online")], 0⟩,
         ⟨"spectrum_drive_status",
            [("enclosure", "1"), ("slot_id", "2"), ("id", "7"), ("status", "offline")], 0⟩,
         ⟨"spectrum_drive_status",
            [("enclosure", "1"), ("slot_id", "2"), ("id", "7"), ("status", "degraded")], 0⟩] :=
  ⟨⟨by decide, by decide⟩,
   (claim_c2_amended_unknown_status_zeroes ⟨"7", "flaky", "member", "5TiB", "2", "", "", "1"⟩
      ⟨"???", "p1", "1"⟩ (by decide) (by decide)).1⟩

/-- C9: for every pool record, each of the three capacity metrics (free,
total, used) is emitted exactly when its own string parses: the status
indicators and the volume count are always present, a parseable capacity
string contributes its point, an unparseable one only loses its own point
— independently of the other two fields — and the pool probe returns true
for any fetched record list and any starting sink. -/
theorem claim_c9_pool_partial_parse (pb : String → Option Int) (s : Pool) :
    (∀ (tr : Transport) (c : Client) (reg : Registry) (log : List HttpRequest)
        (st : List Pool),
      tr (fetchRequest c "rest/lsmdiskgrp" "") = .response 200 (.pools st) →
      (probePool tr pb c reg log).1 = true)
    ∧ ⟨"spectrum_pool_status", [("id", s.id), ("name", s.name), ("status", "online")],
        if s.status = "online" then 1 else 0⟩ ∈ poolPoints pb s
    ∧ ⟨"spectrum_pool_status", [("id", s.id), ("name", s.name), ("status", "offline")],
        if s.status = "offline" then 1 else 0⟩ ∈ poolPoints pb s
    ∧ ⟨"spectrum_pool_volume_count", [("id", s.id), ("name", s.name)], (s.vdiskCount : ℚ)⟩
        ∈ poolPoints pb s
    ∧ (∀ v : Int, pb s.freeCapacity = some v →
        ⟨"spectrum_pool_free_bytes", [("id", s.id), ("name", s.name)], (v : ℚ)⟩
          ∈ poolPoints pb s)
    ∧ (pb s.freeCapacity = none →
        ∀ p ∈ poolPoints pb s, p.name ≠ "spectrum_pool_free_bytes")
    ∧ (∀ v : Int, pb s.capacity = some v →
        ⟨"spectrum_pool_capacity_bytes", [("id", s.id), ("name", s.name)], (v : ℚ)⟩
          ∈ poolPoints pb s)
    ∧ (pb s.capacity = none →
        ∀ p ∈ poolPoints pb s, p.name ≠ "spectrum_pool_capacity_bytes")
    ∧ (∀ v : Int, pb s.usedCapacity = some v →
        ⟨"spectrum_pool_used_bytes", [("id", s.id), ("name", s.name)], (v : ℚ)⟩
          ∈ poolPoints pb s)
    ∧ (pb s.usedCapacity = none →
        ∀ p ∈ poolPoints pb s, p.name ≠ "spectrum_pool_used_bytes") := by
  refine ⟨?_, ?_, ?_, ?_, ?_, ?_, ?_, ?_, ?_, ?_⟩
  · intro tr c reg log st htr
    unfold probePool clientGet
    simp only [htr, mustRegister]
    norm_num
  · unfold poolPoints
    by_cases h1 : s.status = "online"
    · simp [h1]
    · by_cases h2 : s.status = "offline" <;> simp [h1, h2]
  · unfold poolPoints
    by_cases h1 : s.status = "online"
    · simp [h1]
    · by_cases h2 : s.status = "offline" <;> simp [h1, h2]
  · unfold poolPoints
    simp
  · intro v hv
    unfold poolPoints
    rw [hv]
    simp
  · intro hfree p hp
    unfold poolPoints at hp
    rw [hfree] at hp
    rcases List.mem_append.mp hp with hp | hp
    · rcases List.mem_append.mp hp with hp | hp
      · rcases List.mem_append.mp hp with hp | hp
        · simp only [List.mem_cons, List.not_mem_nil, or_false] at hp
          rcases hp with rfl | rfl | rfl <;> simp
        · simp at hp
      · rcases hc : pb s.capacity with _ | w <;> rw [hc] at hp
        · simp at hp
        · simp only [List.mem_singleton] at hp
          subst hp
          simp
    · rcases hu : pb s.usedCapacity with _ | x <;> rw [hu] at hp
      · simp at hp
      · simp only [List.mem_singleton] at hp
        subst hp
        simp
  · intro v hv
    unfold poolPoints
    rw [hv]
    simp
  · intro hcap p hp
    unfold poolPoints at hp
    rw [hcap] at hp
    rcases List.mem_append.mp hp with hp | hp
    · rcases List.mem_append.mp hp with hp | hp
      · rcases List.mem_append.mp hp with hp | hp
        · simp only [List.mem_cons, List.not_mem_nil, or_false] at hp
          rcases hp with rfl | rfl | rfl <;> simp
        · rcases hf : pb s.freeCapacity with _ | w <;> rw [hf] at hp
          · simp at hp
          · simp only [List.mem_singleton] at hp
            subst hp
            simp
      · simp at hp
    · rcases hu : pb s.usedCapacity with _ | x <;> rw [hu] at hp
      · simp at hp
      · simp only [List.mem_singleton] at hp
        subst hp
        simp
  · intro v hv
    unfold poolPoints
    rw [hv]
    simp
  · intro hused p hp
    unfold poolPoints at hp
    rw [hused] at hp
    rcases List.mem_append.mp hp with hp | hp
    · rcases List.mem_append.mp hp with hp | hp
      · rcases List.mem_append.mp hp with hp | hp
        · simp only [List.mem_cons, List.not_mem_nil, or_false] at hp
          rcases hp with rfl | rfl | rfl <;> simp
        · rcases hf : pb s.freeCapacity with _ | w <;> rw [hf] at hp
          · simp at hp
          · simp only [List.mem_singleton] at hp
            subst hp
            simp
      · rcases hc : pb s.capacity with _ | w <;> rw [hc] at hp
        · simp at hp
        · simp only [List.mem_singleton] at hp
          subst hp
          simp
    · simp at hp

def trC9 : Transport := fun _ =>
  .response 200 (.pools [⟨"0", "online", "pool0", 5, "10GiB", "2GiB", "", "bad", "", ""⟩])

def pbC9 : String → Option Int := fun str =>
  if str = "10GiB" then some 10737418240
  else if str = "2GiB" then some 2147483648
  else none

theorem claim_c9_witness :
    pbC9 "bad" = none
    ∧ (probePool trC9 pbC9 ⟨⟨"https", "h", "", "", ""⟩, "t"⟩ ⟨[], []⟩ []).1 = true
    ∧ ⟨"spectrum_pool_free_bytes", [("id", "0"), ("name", "pool0")], (2147483648 : ℚ)⟩
        ∈ poolPoints pbC9 ⟨"0", "online", "pool0", 5, "10GiB", "2GiB", "", "bad", "", ""⟩
    ∧ ⟨"spectrum_pool_capacity_bytes", [("id", "0"), ("name", "pool0")], (10737418240 : ℚ)⟩
        ∈ poolPoints pbC9 ⟨"0", "online", "pool0", 5, "10GiB", "2GiB", "", "bad", "", ""⟩
    ∧ ∀ p ∈ poolPoints pbC9 ⟨"0", "online", "pool0", 5, "10GiB", "2GiB", "", "bad", "", ""⟩,
        p.name ≠ "spectrum_pool_used_bytes" := by
  have h := claim_c9_pool_partial_parse pbC9
    ⟨"0", "online", "pool0", 5, "10GiB", "2GiB", "", "bad", "", ""⟩
  exact ⟨rfl,
    h.1 trC9 ⟨⟨"https", "h", "", "", ""⟩, "t"⟩ ⟨[], []⟩ [] _ rfl,
    h.2.2.2.2.1 2147483648 rfl,
    h.2.2.2.2.2.2.1 10737418240 rfl,
    h.2.2.2.2.2.2.2.2.2 rfl⟩

theorem hasSuffix_iff_suffix (s t : String) : hasSuffix s t = true ↔ t.data <:+ s.data := by
  simp [hasSuffix, List.isSuffixOf]

theorem trimSuffix_append (s t : String) : trimSuffix (s ++ t) t = s := by
  have hsuf : hasSuffix (s ++ t) t = true := by
    rw [hasSuffix_iff_suffix]
    simp [String.data_append]
  apply String.ext
  simp only [trimSuffix, hsuf, if_true, String.data_append, List.length_append,
    Nat.add_sub_cancel]
  exact List.take_left s.data t.data

theorem string_append_right_ne (s t : String) (ht : t ≠ "") : s ++ t ≠ s := by
  intro h
  apply ht
  apply String.ext
  have hd := congrArg String.data h
  simp only [String.data_append, List.append_right_eq_self] at hd
  exact hd

theorem suffix_cancel_of_length_eq {t u : List Char} (a : List Char)
    (h : u <:+ a ++ t) (hlen : u.length = t.length) : u = t := by
  obtain ⟨w, hw⟩ := h
  have hl : w.length = a.length := by
    have := congrArg List.length hw
    simp only [List.length_append] at this
    omega
  exact (List.append_inj hw (by omega)).2

theorem hasSuffix_of_ne_suffix (s : String) (t u : String)
    (hlen : u.data.length = t.data.length) (hne : u ≠ t) :
    hasSuffix (s ++ t) u = false := by
  by_contra hc
  rw [Bool.not_eq_false, hasSuffix_iff_suffix, String.data_append] at hc
  exact hne (String.ext (suffix_cancel_of_length_eq s.data hc hlen))

theorem hasSuffix_decompose (s t : String) (h : hasSuffix s t = true) :
    ∃ pre : String, s = pre ++ t := by
  rw [hasSuffix_iff_suffix] at h
  obtain ⟨w, hw⟩ := h
  exact ⟨⟨w⟩, String.ext (by simpa [String.data_append] using hw.symm)⟩

theorem trimSuffix_of_hasSuffix_false (s t : String) (h : hasSuffix s t = false) :
    trimSuffix s t = s := by
  simp [trimSuffix, h]

/-- C8: port speed normalization.  For Fibre Channel ports, a string that
is a parseable integer followed by "Gb" maps to that integer times 10⁹
and every other string maps to 0; for IP ports, integer + "Gb/s" maps to
×10⁹, integer + "Mb/s" to ×10⁶, and every other string to 0; with the
spec's concrete examples. -/
theorem claim_c8_speed_normalization :
    (∀ (s : String) (x : Int), atoi s = some x
      → fcSpeedBps (s ++ "Gb") = x * 1000000000)
    ∧ (∀ s : String, (¬ ∃ (pre : String) (x : Int), s = pre ++ "Gb" ∧ atoi pre = some x)
      → fcSpeedBps s = 0)
    ∧ (∀ (s : String) (x : Int), atoi s = some x
      → ipSpeedBps (s ++ "Gb/s") = x * 1000000000)
    ∧ (∀ (s : String) (x : Int), atoi s = some x
      → ipSpeedBps (s ++ "Mb/s") = x * 1000000)
    ∧ (∀ s : String, (¬ ∃ (pre : String) (x : Int), s = pre ++ "Gb/s" ∧ atoi pre = some x)
      → (¬ ∃ (pre : String) (x : Int), s = pre ++ "Mb/s" ∧ atoi pre = some x)
      → ipSpeedBps s = 0)
    ∧ fcSpeedBps "8Gb" = 8000000000 ∧ fcSpeedBps "8" = 0 ∧ fcSpeedBps "N/A" = 0
    ∧ ipSpeedBps "10Gb/s" = 10000000000 ∧ ipSpeedBps "100Mb/s" = 100000000
    ∧ ipSpeedBps "10Gb" = 0 := by
  have hGb : ("Gb" : String) ≠ "" := by decide
  have hGbs : ("Gb/s" : String) ≠ "" := by decide
  have hMbs : ("Mb/s" : String) ≠ "" := by decide
  refine ⟨?_, ?_, ?_, ?_, ?_, by decide, by decide, by decide, by decide, by decide, by decide⟩
  · intro s x hx
    have h1 : s ≠ s ++ "Gb" := Ne.symm (string_append_right_ne s "Gb" hGb)
    simp [fcSpeedBps, trimSuffix_append, h1, hx]
    ring
  · intro s hnex
    rcases hsuf : hasSuffix s "Gb" with _ | _
    · have h3 := trimSuffix_of_hasSuffix_false s "Gb" hsuf
      simp [fcSpeedBps, h3]
    · obtain ⟨pre, rfl⟩ := hasSuffix_decompose s "Gb" hsuf
      have h1 : pre ≠ pre ++ "Gb" := Ne.symm (string_append_right_ne pre "Gb" hGb)
      rcases hx : atoi pre with _ | x
      · simp [fcSpeedBps, trimSuffix_append, h1, hx]
      · exact absurd ⟨pre, x, rfl, hx⟩ hnex
  · intro s x hx
    have h1 : s ≠ s ++ "Gb/s" := Ne.symm (string_append_right_ne s "Gb/s" hGbs)
    have h2 : hasSuffix (s ++ "Gb/s") "Mb/s" = false :=
      hasSuffix_of_ne_suffix s "Gb/s" "Mb/s" (by decide) (by decide)
    have h3 := trimSuffix_of_hasSuffix_false (s ++ "Gb/s") "Mb/s" h2
    simp [ipSpeedBps, trimSuffix_append, h1, h3, hx]
    ring
  · intro s x hx
    have h1 : s ≠ s ++ "Mb/s" := Ne.symm (string_append_right_ne s "Mb/s" hMbs)
    have h2 : hasSuffix (s ++ "Mb/s") "Gb/s" = false :=
      hasSuffix_of_ne_suffix s "Mb/s" "Gb/s" (by decide) (by decide)
    have h3 := trimSuffix_of_hasSuffix_false (s ++ "Mb/s") "Gb/s" h2
    simp [ipSpeedBps, trimSuffix_append, h1, h3, hx]
    ring
  · intro s hnex1 hnex2
    rcases hsuf1 : hasSuffix s "Gb/s" with _ | _
    · have h3 := trimSuffix_of_hasSuffix_false s "Gb/s" hsuf1
      rcases hsuf2 : hasSuffix s "Mb/s" with _ | _
      · have h4 := trimSuffix_of_hasSuffix_false s "Mb/s" hsuf2
        simp [ipSpeedBps, h3, h4]
      · obtain ⟨pre, rfl⟩ := hasSuffix_decompose s "Mb/s" hsuf2
        have h1 : pre ≠ pre ++ "Mb/s" := Ne.symm (string_append_right_ne pre "Mb/s" hMbs)
        rcases hx : atoi pre with _ | x
        · simp [ipSpeedBps, trimSuffix_append, h1, h3, hx]
        · exact absurd ⟨pre, x, rfl, hx⟩ hnex2
    · obtain ⟨pre, rfl⟩ := hasSuffix_decompose s "Gb/s" hsuf1
      have h1 : pre ≠ pre ++ "Gb/s" := Ne.symm (string_append_right_ne pre "Gb/s" hGbs)
      have h2 : hasSuffix (pre ++ "Gb/s") "Mb/s" = false :=
        hasSuffix_of_ne_suffix pre "Gb/s" "Mb/s" (by decide) (by decide)
      have h3 := trimSuffix_of_hasSuffix_false (pre ++ "Gb/s") "Mb/s" h2
      rcases hx : atoi pre with _ | x
      · simp [ipSpeedBps, trimSuffix_append, h1, h3, hx]
      · exact absurd ⟨pre, x, rfl, hx⟩ hnex1

theorem claim_c8_witness :
    atoi "8" = some 8 ∧ "8Gb" = "8" ++ "Gb" ∧ fcSpeedBps ("8" ++ "Gb") = 8 * 1000000000 :=
  ⟨by decide, rfl, (claim_c8_speed_normalization.1 "8" 8 (by decide))⟩

/-- A failed client construction issued at most the login request. -/
theorem newSpectrumClient_error_log (tr : Transport) (am : List (String × Auth)) (tgt : URL)
    (log₀ : List HttpRequest) (e : String) (log₁ : List HttpRequest)
    (h : newSpectrumClient tr am tgt log₀ = (.error e, log₁)) :
    log₁ = log₀ ∨ ∃ us pw, log₁ = log₀ ++ [authRequest tgt us pw] := by
  rcases hl : am.lookup (urlString tgt) with _ | a
  · simp only [newSpectrumClient, hl] at h
    exact Or.inl (by simp_all)
  · simp only [newSpectrumClient, hl] at h
    by_cases hcred : a.user ≠ "" ∧ a.password ≠ ""
    · rw [if_pos hcred] at h
      simp only [newSpectrumPasswordClient] at h
      rcases htr : tr (authRequest tgt a.user a.password) with e' | ⟨code, body⟩ <;>
        simp only [htr] at h
      · exact Or.inr ⟨a.user, a.password, by simp_all⟩
      · by_cases hcode : code ≠ 200
        · rw [if_pos hcode] at h
          exact Or.inr ⟨a.user, a.password, by simp_all⟩
        · rw [if_neg hcode] at h
          rcases body with tok | st | st | st | st | st | st | st | _ <;> simp only at h <;>
            exact Or.inr ⟨a.user, a.password, by simp_all⟩
    · rw [if_neg hcred] at h
      exact Or.inl (by simp_all)

/-- Any request a probe's fetch list contains is a query-free fetch
request for its path. -/
theorem mem_fetches (q : ProbeInfo) (c : Client) (req : HttpRequest)
    (h : req ∈ q.fetches c) : ∃ pa, req = fetchRequest c pa "" := by
  unfold ProbeInfo.fetches at h
  rcases hp : q.path with _ | pa <;> rw [hp] at h
  · simp at h
  · simp at h
    first
      | exact ⟨pa, h⟩
      | exact ⟨pa, h.symm⟩

/-- C5: the orchestrator rejects any scheme other than http and https
with an error and no requests; its behaviour depends only on the parsed
target's scheme and host (path, query and fragment are discarded); and
every request it issues has a URL built from exactly that scheme-host
pair plus a request path. -/
theorem claim_c5_scheme_host_whitelist :
    (∀ (env : Env) (target : String) (tgt : URL) (reg : Registry),
        env.parseURL target = .ok tgt → tgt.scheme ≠ "http" → tgt.scheme ≠ "https" →
        probe env target reg = (.error ("Unsupported scheme " ++ tgt.scheme), reg, []))
    ∧ (∀ (env : Env) (target target' : String) (tgt tgt' : URL) (reg : Registry),
        env.parseURL target = .ok tgt → env.parseURL target' = .ok tgt' →
        tgt.scheme = tgt'.scheme → tgt.host = tgt'.host →
        probe env target reg = probe env target' reg)
    ∧ (∀ (env : Env) (target : String) (tgt : URL) (reg : Registry)
        (r : Except String Bool) (regF : Registry) (logF : List HttpRequest),
        (∀ p ∈ reg.points, p.name ∉ spectrumMetricNames) →
        env.parseURL target = .ok tgt →
        probe env target reg = (r, regF, logF) →
        ∀ req ∈ logF, ∃ pa, req.url = urlString ⟨tgt.scheme, tgt.host, pa, "", ""⟩) := by
  refine ⟨?_, ?_, ?_⟩
  · intro env target tgt reg hpu h1 h2
    unfold probe
    rw [hpu]
    simp only
    rw [if_pos ⟨h2, h1⟩]
  · intro env target target' tgt tgt' reg hpu hpu' hsch hh
    unfold probe
    rw [hpu, hpu']
    simp only
    rw [hsch, hh]
  · intro env target tgt reg r regF logF hreg hpu hp req hreq
    rcases r with e | b
    · unfold probe at hp
      rw [hpu] at hp
      simp only at hp
      by_cases hsch : tgt.scheme ≠ "https" ∧ tgt.scheme ≠ "http"
      · rw [if_pos hsch] at hp
        simp only [Prod.mk.injEq] at hp
        obtain ⟨_, _, hlog⟩ := hp
        rw [← hlog] at hreq
        exact absurd hreq (List.not_mem_nil req)
      · rw [if_neg hsch] at hp
        rcases hnc : newSpectrumClient env.transport env.authMap
            ⟨tgt.scheme, tgt.host, "", "", ""⟩ [] with ⟨cres, log₁⟩
        rw [hnc] at hp
        rcases cres with e' | c <;> simp only at hp
        · simp only [Prod.mk.injEq, Except.error.injEq] at hp
          obtain ⟨he, hregF, hlogF⟩ := hp
          rw [← hlogF] at hreq
          rcases newSpectrumClient_error_log env.transport env.authMap
              ⟨tgt.scheme, tgt.host, "", "", ""⟩ [] e' log₁ hnc with hl | ⟨us, pw, hl⟩
          · rw [hl] at hreq
            exact absurd hreq (List.not_mem_nil req)
          · rw [hl] at hreq
            simp only [List.nil_append, List.mem_singleton] at hreq
            subst hreq
            exact ⟨"/rest/auth", rfl⟩
        · rcases hall : probeAll env.transport env.parseBase2Bytes c reg log₁
            with ⟨b', reg', log'⟩
          rw [hall] at hp
          simp only [Prod.mk.injEq] at hp
          exact absurd hp.1 (by simp)
    · obtain ⟨tgt', a, tok, hpu', hsch, hlook, hcase⟩ :=
        probe_ok_shape env target reg hreg b regF logF hp
      have htgt : tgt' = tgt := by
        rw [hpu] at hpu'
        exact (Except.ok.inj hpu').symm
      subst htgt
      rcases hcase with ⟨_, pts, hregF, hlogF, _⟩ | ⟨_, k, pts, hk, hregF, hlogF, _⟩ <;>
        rw [hlogF] at hreq <;>
        rcases List.mem_cons.mp hreq with rfl | hmem
      · exact ⟨"/rest/auth", rfl⟩
      · rcases List.mem_flatten.mp hmem with ⟨lr, hlr, hrmem⟩
        rcases List.mem_map.mp hlr with ⟨q, hq, rfl⟩
        obtain ⟨pa, rfl⟩ := mem_fetches q _ req hrmem
        exact ⟨pa, rfl⟩
      · exact ⟨"/rest/auth", rfl⟩
      · rcases List.mem_flatten.mp hmem with ⟨lr, hlr, hrmem⟩
        rcases List.mem_map.mp hlr with ⟨q, hq, rfl⟩
        obtain ⟨pa, rfl⟩ := mem_fetches q _ req hrmem
        exact ⟨pa, rfl⟩

def envC5 : Env :=
  ⟨fun s => if s = "ftp://h/x?q=1" then .ok ⟨"ftp", "h", "/x", "q=1", ""⟩ else .error "bad",
   fun _ => .transportError "net", [], fun _ => none⟩

theorem claim_c5_witness :
    probe envC5 "ftp://h/x?q=1" ⟨[], []⟩
      = (.error ("Unsupported scheme " ++ "ftp"), ⟨[], []⟩, []) :=
  claim_c5_scheme_host_whitelist.1 envC5 "ftp://h/x?q=1" ⟨"ftp", "h", "/x", "q=1", ""⟩
    ⟨[], []⟩ rfl (by decide) (by decide)

/-- C3: when the orchestrator's chain reports failure, there is a first
failing probe `k`: the request log is exactly the login request followed
by the fetches of probes 0..k, the registered families are exactly those
of probes 0..k, and any emitted series carries a metric name of probes
0..k-1 — later probes in the fixed sequence fetched nothing and
registered nothing. -/
theorem claim_c3_short_circuit (env : Env) (target : String) (reg : Registry)
    (regF : Registry) (logF : List HttpRequest)
    (hreg : ∀ p ∈ reg.points, p.name ∉ spectrumMetricNames)
    (h : probe env target reg = (.ok false, regF, logF)) :
    ∃ (tgt : URL) (a : Auth) (tok : String) (k : Nat) (pts : List MetricPoint), k < 8
      ∧ env.parseURL target = .ok tgt
      ∧ logF = authRequest ⟨tgt.scheme, tgt.host, "", "", ""⟩ a.user a.password
          :: (((probeInfoList env.transport env.parseBase2Bytes).take (k+1)).map
                (fun q => q.fetches ⟨⟨tgt.scheme, tgt.host, "", "", ""⟩, tok⟩)).flatten
      ∧ regF.families = reg.families
          ++ ((((probeInfoList env.transport env.parseBase2Bytes).take (k+1)).map
                ProbeInfo.fams).flatten)
      ∧ regF.points = reg.points ++ pts
      ∧ (∀ p ∈ pts, p.name ∈
          ((((probeInfoList env.transport env.parseBase2Bytes).take k).map
              ProbeInfo.famNames).flatten)) := by
  obtain ⟨tgt, a, tok, hpu, hsch, hlook, hcase⟩ :=
    probe_ok_shape env target reg hreg false regF logF h
  rcases hcase with ⟨hb, _⟩ | ⟨_, k, pts, hk, hregF, hlogF, hnames⟩
  · exact absurd hb (by simp)
  · exact ⟨tgt, a, tok, k, pts, hk, hpu, hlogF, by rw [hregF], by rw [hregF], hnames⟩

/-- Decidability of probe-result equality, for concrete evaluations. -/
instance : DecidableEq (Except String Bool)
  | .error e, .error f => decidable_of_iff (e = f) (by simp)
  | .error _, .ok _ => isFalse (by simp)
  | .ok _, .error _ => isFalse (by simp)
  | .ok b, .ok c => decidable_of_iff (b = c) (by simp)

def envC3 : Env :=
  ⟨fun s => if s = "http://h" then .ok ⟨"http", "h", "", "", ""⟩ else .error "bad",
   fun req => if req.url = "http://h/rest/auth" then .response 200 (.loginBody "t")
     else .transportError "down",
   [("http://h", ⟨"u", "p"⟩)], fun _ => none⟩

theorem claim_c3_witness :
    ∃ (tgt : URL) (a : Auth) (tok : String) (k : Nat) (pts : List MetricPoint), k < 8
      ∧ envC3.parseURL "http://h" = .ok tgt
      ∧ [⟨"POST", "http://h/rest/auth", [("X-Auth-Username", "u"), ("X-Auth-Password", "p")]⟩,
         ⟨"POST", "http://h/rest/lsenclosurestats", [("X-Auth-Token", "t")]⟩]
          = authRequest ⟨tgt.scheme, tgt.host, "", "", ""⟩ a.user a.password
            :: (((probeInfoList envC3.transport envC3.parseBase2Bytes).take (k+1)).map
                  (fun q => q.fetches ⟨⟨tgt.scheme, tgt.host, "", "", ""⟩, tok⟩)).flatten
      ∧ (⟨[("spectrum_power_watts", ["enclosure"]), ("spectrum_temperature", ["enclosure"])],
            ([] : List MetricPoint)⟩ : Registry).families
          = ([] : List (String × List String))
            ++ ((((probeInfoList envC3.transport envC3.parseBase2Bytes).take (k+1)).map
                  ProbeInfo.fams).flatten)
      ∧ (⟨[("spectrum_power_watts", ["enclosure"]), ("spectrum_temperature", ["enclosure"])],
            ([] : List MetricPoint)⟩ : Registry).points = ([] : List MetricPoint) ++ pts
      ∧ (∀ p ∈ pts, p.name ∈
          ((((probeInfoList envC3.transport envC3.parseBase2Bytes).take k).map
              ProbeInfo.famNames).flatten)) :=
  claim_c3_short_circuit envC3 "http://h" ⟨[], []⟩
    ⟨[("spectrum_power_watts", ["enclosure"]), ("spectrum_temperature", ["enclosure"])], []⟩
    [⟨"POST", "http://h/rest/auth", [("X-Auth-Username", "u"), ("X-Auth-Password", "p")]⟩,
     ⟨"POST", "http://h/rest/lsenclosurestats", [("X-Auth-Token", "t")]⟩]
    (by simp) (by with_unfolding_all rfl)

/-- The sink as `probeHandler` hands it to `probe`: the success and
duration gauges registered, both at their default 0. -/
def handlerInitRegistry : Registry :=
  ⟨[("probe_success", []), ("probe_duration_seconds", [])],
   [⟨"probe_success", [], 0⟩, ⟨"probe_duration_seconds", [], 0⟩]⟩

/-- Names of a failure-prefix of the probe sequence are probe metric names. -/
theorem take_famNames_subset (tr : Transport) (pb : String → Option Int) (k : Nat) :
    ∀ n ∈ ((((probeInfoList tr pb).take k).map ProbeInfo.famNames).flatten),
      n ∈ spectrumMetricNames := by
  intro n hn
  rcases List.mem_flatten.mp hn with ⟨ns, hns, hnn⟩
  rcases List.mem_map.mp hns with ⟨q, hq, rfl⟩
  rw [← probeInfoList_famNames tr pb]
  exact List.mem_flatten.mpr ⟨q.famNames, List.mem_map_of_mem _ (List.take_subset k _ hq), hnn⟩

/-- C1 amended: a probe-level failure surfaced as a Go error
(credential resolution or authentication) is rejected with HTTP 400 and
no metrics body, while a fetch-level failure (`probe` returns false with
no error) yields HTTP 200 serializing the sink — the series registered
before the failure plus the success gauge still at 0 and the duration
gauge — so an HTTP error status and a metrics body never occur together. -/
theorem claim_c1_amended_failure_exposure :
    (∀ (env : Env) (target : String) (dur : ℚ) (e : String) (reg' : Registry)
        (log' : List HttpRequest),
      target ≠ "" →
      probe env target handlerInitRegistry = (.error e, reg', log') →
      probeHandler env target dur = .clientError 400 ("probe: " ++ e))
    ∧ (∀ (env : Env) (target : String) (dur : ℚ) (regF : Registry)
        (logF : List HttpRequest),
      target ≠ "" →
      probe env target handlerInitRegistry = (.ok false, regF, logF) →
      probeHandler env target dur
        = .metricsPage 200
            ⟨regF.families,
             ⟨"probe_success", [], 0⟩ :: ⟨"probe_duration_seconds", [], dur⟩
               :: regF.points.drop 2⟩
      ∧ regF.points.take 2 = [⟨"probe_success", [], 0⟩, ⟨"probe_duration_seconds", [], 0⟩]
      ∧ (probeHandler env target dur).status = 200) := by
  have hIR : registerGauge (registerGauge ⟨[], []⟩ "probe_success") "probe_duration_seconds"
      = handlerInitRegistry := rfl
  constructor
  · intro env target dur e reg' log' ht h
    unfold probeHandler
    rw [if_neg ht]
    dsimp only
    rw [hIR, h]
  · intro env target dur regF logF ht h
    obtain ⟨tgt, a, tok, hpu, hsch, hlook, hcase⟩ :=
      probe_ok_shape env target handlerInitRegistry (by decide) false regF logF h
    rcases hcase with ⟨hb, _⟩ | ⟨_, k, pts, hk, hregF, hlogF, hnames⟩
    · exact absurd hb (by simp)
    have hpoints : regF.points
        = ⟨"probe_success", [], 0⟩ :: ⟨"probe_duration_seconds", [], 0⟩ :: pts := by
      rw [hregF]
      rfl
    have happ : applyPoints regF [⟨"probe_duration_seconds", [], dur⟩]
        = ⟨regF.families,
           ⟨"probe_success", [], 0⟩ :: ⟨"probe_duration_seconds", [], dur⟩
             :: regF.points.drop 2⟩ := by
      unfold applyPoints
      rw [hpoints]
      simp [setPoint]
    refine ⟨?_, by rw [hpoints]; simp, ?_⟩
    · unfold probeHandler
      rw [if_neg ht]
      dsimp only
      rw [hIR, h]
      dsimp only
      rw [happ]
      simp
    · unfold probeHandler
      rw [if_neg ht]
      dsimp only
      rw [hIR, h]
      simp [HandlerResponse.status]

def envC1 : Env :=
  ⟨fun s => if s = "http://h" then .ok ⟨"http", "h", "", "", ""⟩ else .error "bad",
   fun req => if req.url = "http://h/rest/auth" then .response 200 (.loginBody "t")
     else .transportError "down",
   [("http://h", ⟨"u", "p"⟩)], fun _ => none⟩

/-- C1 counterexample: with valid credentials but a transport that fails
the first resource fetch, the probe reports a probe-level failure
(`false` with no Go error), yet the handler answers HTTP 200 — not an
HTTP error status — while serializing the sink. -/
theorem claim_c1_counterexample :
    probe envC1 "http://h" handlerInitRegistry
      = (.ok false,
         ⟨[("probe_success", []), ("probe_duration_seconds", []),
           ("spectrum_power_watts", ["enclosure"]), ("spectrum_temperature", ["enclosure"])],
          [⟨"probe_success", [], 0⟩, ⟨"probe_duration_seconds", [], 0⟩]⟩,
         [⟨"POST", "http://h/rest/auth",
            [("X-Auth-Username", "u"), ("X-Auth-Password", "p")]⟩,
          ⟨"POST", "http://h/rest/lsenclosurestats", [("X-Auth-Token", "t")]⟩])
    ∧ (probeHandler envC1 "http://h" 1).status = 200
    ∧ ¬ 400 ≤ (probeHandler envC1 "http://h" 1).status := by
  refine ⟨by with_unfolding_all rfl, by with_unfolding_all rfl, ?_⟩
  have h : (probeHandler envC1 "http://h" 1).status = 200 := by with_unfolding_all rfl
  rw [h]
  norm_num

def envC1w : Env :=
  ⟨fun s => if s = "http://h" then .ok ⟨"http", "h", "", "", ""⟩ else .error "bad",
   fun _ => .transportError "net", [], fun _ => none⟩

theorem claim_c1_witness :
    ("http://h" : String) ≠ ""
    ∧ probeHandler envC1w "http://h" 1
      = .clientError 400 ("probe: " ++ ("No API authentication registered for " ++ "http://h")) :=
  ⟨by decide,
   claim_c1_amended_failure_exposure.1 envC1w "http://h" 1
     ("No API authentication registered for " ++ "http://h") handlerInitRegistry []
     (by decide) (by with_unfolding_all rfl)⟩

end SpectrumExporter
